import Mathlib

/-!
# Porto task launcher: a shallow embedding of `task.cpp`

The definitions below follow `src/task.cpp` function by function.  System
calls are answered by an explicit `World` record (an oracle for what the
kernel and libc return), so every function of the source becomes a pure
function of the task and the world.

Conventions used throughout:

* C `int` values are `Int`; descriptors, pids and errno values are `Int`.
* A failing system call returns a negative value and leaves an errno value;
  the oracle gives that errno.
* `Syslog` only records a message; it is taken not to disturb `errno`.
-/

namespace Porto

/-! ## Errors -/

/-- Error kinds carried by a `TError` (the `EError` enumeration). -/
inductive EError
  | Success
  | Unknown
  | InvalidValue
  | InvalidCommand
  | InvalidPath
  | InvalidState
  | InvalidProperty
  | InvalidData
  | ContainerDoesNotExist
  | ContainerAlreadyExists
  | Permission
  | ResourceNotAvailable
  deriving DecidableEq, Repr

/-- Modelled from the spec: the integer value of an `EError` (the
enumeration's declaration is not among the sources).  The kinds are numbered
in the order the spec lists the wire error codes, `Success` being 0. -/
def EError.toInt : EError → Int
  | .Success => 0
  | .Unknown => 1
  | .InvalidValue => 2
  | .InvalidCommand => 3
  | .InvalidPath => 4
  | .InvalidState => 5
  | .InvalidProperty => 6
  | .InvalidData => 7
  | .ContainerDoesNotExist => 8
  | .ContainerAlreadyExists => 9
  | .Permission => 10
  | .ResourceNotAvailable => 11

/-- A `TError`: kind, errno and message, as built by the constructors
`TError(EError, int, string)` and `TError(EError, string)` used in task.cpp. -/
structure TError where
  Error : EError
  Errno : Int
  Msg : String
  deriving DecidableEq, Repr

namespace TError

/-- The value `TError::Success()`. -/
def Success : TError := ⟨EError.Success, 0, ""⟩

/-- The constructor `TError(EError e, std::string description)`. -/
def mk2 (e : EError) (msg : String) : TError := ⟨e, 0, msg⟩

/-- The conversion `operator bool`: true for every error but success. -/
def isError (e : TError) : Bool := decide (e.Error ≠ EError.Success)

/-- The accessor `GetError()`: the error kind, read as an integer (cli.cpp
passes it to `ErrorName(int)` which casts it back to the enumeration). -/
def GetError (e : TError) : Int := e.Error.toInt

/-- The accessor `GetMsg()`. -/
def GetMsg (e : TError) : String := e.Msg

end TError

/-! ## errno values and flag constants of the Linux headers -/

def ENOENT : Int := 2
def EACCES : Int := 13
def EINVAL : Int := 22

def EXIT_SUCCESS : Int := 0
def EXIT_FAILURE : Int := 1

def SIGCHLD : Nat := 17
def CLONE_NEWNS : Nat := 0x00020000
def CLONE_NEWUTS : Nat := 0x04000000
def CLONE_NEWIPC : Nat := 0x08000000
def CLONE_NEWPID : Nat := 0x20000000

def O_RDONLY : Nat := 0
def O_WRONLY : Nat := 1
def O_CREAT : Nat := 0o100
def O_TRUNC : Nat := 0o1000
def O_APPEND : Nat := 0o2000
def O_CLOEXEC : Nat := 0o2000000

def PR_SET_KEEPCAPS : Nat := 8

def WRDE_NOCMD : Nat := 4
def WRDE_UNDEF : Nat := 32

def WRDE_NOSPACE : Int := 1
def WRDE_BADCHAR : Int := 2
def WRDE_BADVAL : Int := 3
def WRDE_CMDSUB : Int := 4
def WRDE_SYNTAX : Int := 5

/-! ## Data model -/

/-- The exit status pair kept by a task. -/
structure TExitStatus where
  Error : Int
  Status : Int
  deriving DecidableEq, Repr

/-- The two task states of `TTask::State`. -/
inductive ETaskState
  | Stopped
  | Started
  deriving DecidableEq, Repr

/-- The launch environment `TTaskEnv`. -/
structure TTaskEnv where
  Command : String
  Cwd : String
  Root : String
  User : String
  Group : String
  Envir : String
  Env : List String
  Uid : Nat
  Gid : Nat
  deriving DecidableEq, Repr

/-- A leaf cgroup of a task; only its relative path is read by task.cpp. -/
structure TCgroup where
  Relpath : String
  deriving DecidableEq, Repr

/-- The task object `TTask`. -/
structure TTask where
  Env : TTaskEnv
  LeafCgroups : List TCgroup
  State : ETaskState
  Pid : Int
  ExitStatus : TExitStatus
  StdoutFile : String
  StderrFile : String
  Rfd : Int
  Wfd : Int
  deriving DecidableEq, Repr

/-- `TTask::GetPid`. -/
def TTask.GetPid (t : TTask) : Int := t.Pid

/-- `TTask::IsRunning`. -/
def TTask.IsRunning (t : TTask) : Bool := decide (t.State = ETaskState.Started)

/-- `TTask::GetExitStatus`. -/
def TTask.GetExitStatus (t : TTask) : TExitStatus := t.ExitStatus

/-- `TTask::DeliverExitStatus`. -/
def TTask.DeliverExitStatus (t : TTask) (status : Int) : TTask :=
  { t with ExitStatus := ⟨0, status⟩, State := ETaskState.Stopped }

/-! ## System-call events -/

/-- A system or library call made by the launcher, with its arguments. -/
inductive Call
  | close (fd : Int)
  | ResetAllSignalHandlers
  | prctl (option : Nat) (arg : Nat)
  | setsid
  | Remount (source target fstype : String)
  | Attach (relpath : String)
  | openFile (path : String) (flags : Nat) (mode : Nat)
  | fchown (fd : Int) (uid gid : Nat)
  | Bind (source target : String)
  | Mount (source target fstype : String)
  | chdir (path : String)
  | chroot (path : String)
  | setgid (gid : Nat)
  | initgroups (user : String) (gid : Nat)
  | setuid (uid : Nat)
  | umask (mask : Nat)
  | clearenv
  | wordexp (command : String) (flags : Nat)
  | execvpe (file : Option String) (argv : List String) (envp : List String)
  | clone (flags : Nat)
  | write (fd : Int) (value : Int)
  deriving DecidableEq, Repr

/-- What a call gave back: a return value, a failure with the errno it left,
or (for the cgroup and mount helpers) a `TError`. -/
inductive Outcome
  | ok (ret : Int)
  | fail (errno : Int)
  | error (e : TError)
  deriving DecidableEq, Repr

/-- One entry of a process' call trace. -/
structure Event where
  call : Call
  outcome : Outcome
  deriving DecidableEq, Repr

/-! ## `TTask::Start` -/

/-- Return value and errno of one system call. -/
structure SysRet where
  ret : Int
  errno : Int
  deriving DecidableEq, Repr

/-- Result of `read(fd, &x, sizeof(x))`: the byte count `n` (negative on
failure), the errno left on failure, and the value found in `x` after a read
that stored at least one byte. -/
structure ReadRet where
  n : Int
  errno : Int
  value : Int
  deriving DecidableEq, Repr

/-- Everything the kernel and libc answer during one `TTask::Start`. -/
structure StartWorld where
  mkstemp1 : Int × String
  mkstemp2 : Int × String
  pipe2 : SysRet
  pfd : Int × Int
  fork : SysRet
  clone : SysRet
  readPid : ReadRet
  readResult : ReadRet
  strerror : Int → String

/-- The static helper `GetTmpFile`: the path filled in by `mkstemp`, or the
empty string when `mkstemp` fails. -/
def GetTmpFile (mk : Int × String) : String :=
  if mk.1 < 0 then "" else mk.2

/-- The flag word the stub passes to `clone`. -/
def stubCloneFlags : Nat :=
  SIGCHLD ||| CLONE_NEWNS ||| CLONE_NEWPID ||| CLONE_NEWUTS

/-- How a call of `TTask::Start` ends.  `parent` is the return in the calling
daemon process.  `fork` returns 0 in the stub process, where `Start` either
exits (`stubExit`) or, when `clone` failed, returns an error (`stubReturn`);
both carry the calls the stub made. -/
inductive StartResult
  | parent (error : TError) (task : TTask)
  | stubExit (calls : List Event) (code : Int)
  | stubReturn (calls : List Event) (error : TError) (task : TTask)
  deriving DecidableEq, Repr

/-- `TTask::Start`. -/
def TTask.Start (t : TTask) (w : StartWorld) : StartResult :=
  let t := { t with ExitStatus := ⟨0, 0⟩ }
  let t := { t with
    StdoutFile := if t.Env.Cwd.length ≠ 0 then t.Env.Cwd ++ "/stdout" else GetTmpFile w.mkstemp1,
    StderrFile := if t.Env.Cwd.length ≠ 0 then t.Env.Cwd ++ "/stderr" else GetTmpFile w.mkstemp2 }
  if w.pipe2.ret ≠ 0 then
    .parent ⟨EError.Unknown, w.pipe2.errno, "pipe2(pdf)"⟩ t
  else
    let t := { t with Rfd := w.pfd.1, Wfd := w.pfd.2 }
    if w.fork.ret < 0 then
      .parent ⟨EError.Unknown, w.fork.errno, "fork()"⟩ t
    else if w.fork.ret = 0 then
      let calls : List Event :=
        [⟨.setsid, .ok 0⟩,
         ⟨.clone stubCloneFlags,
          if w.clone.ret < 0 then .fail w.clone.errno else .ok w.clone.ret⟩,
         ⟨.write t.Wfd w.clone.ret, .ok 0⟩]
      if w.clone.ret < 0 then
        .stubReturn calls ⟨EError.Unknown, w.clone.errno, "clone()"⟩ t
      else
        .stubExit calls EXIT_SUCCESS
    else
      let n := w.readPid.n
      let t := { t with Pid := if n > 0 then w.readPid.value else t.Pid }
      if n ≤ 0 then
        .parent ⟨EError.Unknown, w.readPid.errno, "read(Rfd)"⟩ t
      else
        let n := w.readResult.n
        let ret := w.readResult.value
        if n < 0 then
          .parent ⟨EError.Unknown, w.readResult.errno, "read(Rfd)"⟩ { t with Pid := 0 }
        else if n = 0 then
          .parent TError.Success { t with State := ETaskState.Started }
        else
          let t := { t with Pid := 0, ExitStatus := ⟨ret, -1⟩ }
          let error :=
            if ret < 0 then
              TError.mk2 EError.Unknown ("child prepare: " ++ w.strerror (-ret))
            else
              TError.mk2 EError.Unknown ("child exec: " ++ w.strerror ret)
          .parent error t

/-- The error kind `Start` returns in the daemon process, if it returns
there. -/
def StartResult.kind : StartResult → Option EError
  | .parent e _ => some e.Error
  | .stubExit _ _ => none
  | .stubReturn _ _ _ => none

/-- A freshly constructed task: stopped, no payload. -/
def TTask.fresh (env : TTaskEnv) (cgs : List TCgroup) : TTask :=
  { Env := env, LeafCgroups := cgs, State := ETaskState.Stopped, Pid := 0,
    ExitStatus := ⟨0, 0⟩, StdoutFile := "", StderrFile := "", Rfd := 0, Wfd := 0 }

/-! ## `TTaskEnv::Prepare` -/

/-- The characters removed by `StringTrim` (its default `what` argument). -/
def isTrimChar (c : Char) : Bool := c == ' ' || c == '\t' || c == '\n'

/-- `StringTrim` on a character list: drop leading and trailing blanks. -/
def trimChars (l : List Char) : List Char :=
  ((l.dropWhile isTrimChar).reverse.dropWhile isTrimChar).reverse

/-- Cut a character list at every unescaped separator; a backslash followed
by the separator stands for the separator itself.  `cur` holds the current
entry, reversed. -/
def splitEscapedChars (sep : Char) : List Char → List Char → List (List Char)
  | [], cur => [cur.reverse]
  | [c], cur => if c = sep then [cur.reverse, []] else [(c :: cur).reverse]
  | c :: d :: rest, cur =>
    if c = '\\' ∧ d = sep then splitEscapedChars sep rest (sep :: cur)
    else if c = sep then cur.reverse :: splitEscapedChars sep (d :: rest) []
    else splitEscapedChars sep (d :: rest) (c :: cur)

/-- Cut a character list at every separator, with nothing unescaped and
nothing trimmed; the piece after the last separator is a token unless it is
empty.  `cur` holds the current piece, reversed. -/
def splitChars (sep : Char) : List Char → List Char → List (List Char)
  | [], cur => if cur.isEmpty then [] else [cur.reverse]
  | c :: rest, cur =>
    if c = sep then cur.reverse :: splitChars sep rest []
    else splitChars sep rest (c :: cur)

/-- The helper `SplitString(s, sep, tokens)`.  Its body is not among the
sources; it is modelled after its declaration in `util/string.hpp`, where it
stands next to `SplitEscapedString` and `StringTrim`: the plain splitter,
which cuts the string at every `sep` and neither reads escapes nor trims nor
drops an empty token between two separators.  The call succeeds. -/
def SplitString (s : String) (sep : Char) : TError × List String :=
  (TError.Success, (splitChars sep s.data []).map String.mk)

/-- Modelled from the spec: the entries of a value of the `env` property, a
semicolon-separated list in which a backslash followed by a semicolon is a
literal semicolon; every entry is trimmed of leading and trailing whitespace
and empty entries are skipped. -/
def envEntries (s : String) : List String :=
  (((splitEscapedChars ';' s.data []).map trimChars).filter (fun l => !l.isEmpty)).map String.mk

/-- What the account database and the string helper answer during
`TTaskEnv::Prepare`.  `SplitString s sep` gives the helper's result and the
tokens it appended to the vector; `getpwnam` and `getgrnam` give the uid and
gid of a named account, or nothing when there is no such account. -/
structure PrepareWorld where
  SplitString : String → Char → TError × List String
  errno : Int
  getpwnam : String → Option Nat
  getgrnam : String → Option Nat

/-- `TTaskEnv::Prepare`. -/
def TTaskEnv.Prepare (e : TTaskEnv) (w : PrepareWorld) : TError × TTaskEnv :=
  if e.Command.length = 0 then
    (TError.Success, e)
  else
    let workdir := if e.Cwd.length ≠ 0 then e.Cwd else "/home/" ++ e.User
    let e := { e with Env := e.Env ++
      ["PATH=/usr/local/sbin:/usr/local/bin:/usr/sbin:/usr/bin:/sbin:/bin:" ++ workdir] }
    let split := w.SplitString e.Envir ';'
    let e := { e with Env := e.Env ++ split.2 }
    if split.1.isError then
      (⟨EError.InvalidValue, w.errno, "split(" ++ e.Envir ++ ")"⟩, e)
    else
      let e := { e with Env := e.Env ++ ["HOME=" ++ workdir, "USER=" ++ e.User] }
      match w.getpwnam e.User with
      | none => (⟨EError.InvalidValue, EINVAL, "getpwnam(" ++ e.User ++ ")"⟩, e)
      | some uid =>
        let e := { e with Uid := uid }
        match w.getgrnam e.Group with
        | none => (⟨EError.InvalidValue, EINVAL, "getgrnam(" ++ e.Group ++ ")"⟩, e)
        | some gid => (TError.Success, { e with Gid := gid })

/-- `TTaskEnv::GetEnvp`: the entries of `Env` in order (the terminating null
pointer of the C array is left implicit). -/
def TTaskEnv.GetEnvp (e : TTaskEnv) : List String := e.Env

/-! ## `TTask::ChildCallback` -/

/-- The call sites of `ChildCallback` whose result the code tests, in source
order.  The oracle is asked once per site. -/
inductive Step
  | prctl
  | setsid
  | procRemount
  | open0
  | open1
  | fchown1
  | open2
  | fchown2
  | bindRoot
  | bindTmp
  | bindSys
  | bindRun
  | bindDev
  | bindVar
  | mountProc
  | chdirRoot
  | chroot
  | chdirSlash
  | chdirCwd
  | setgid
  | initgroups
  | setuid
  | execvpe
  deriving DecidableEq, Repr

/-- Everything the kernel and libc answer to the payload process.
`fail s = some e` says the call at site `s` fails and leaves errno `e`;
`attach i` is what `Attach` returns for the i-th leaf cgroup; `write` says
whether the write on the status pipe fails; `wordexp environ command flags`
is the libc word expansion run against the process environment `environ`. -/
structure ChildWorld where
  fail : Step → Option Int
  attach : Nat → TError
  write : Option Int
  dtablesize : Int
  fds : List (Int × String)
  environ : List String
  wordexp : List String → String → Nat → Int × List String
  strerror : Int → String

/-- The mutable state of the payload process while `ChildCallback` runs: the
task's `Wfd` member, `errno`, the open descriptors with what each refers to,
the process environment, the calls made so far and the syslog lines. -/
structure ChildState where
  Wfd : Int
  errno : Int
  fds : List (Int × String)
  environ : List String
  trace : List Event
  syslog : List String
  deriving DecidableEq, Repr

/-- How the payload process leaves `ChildCallback`: through
`ReportResultAndExit(fd, result)`, through a plain `exit(code)`, or by a
successful `execvpe`. -/
inductive ChildEnd
  | reported (fd : Int) (result : Int)
  | exited (code : Int)
  | execed (file : Option String) (argv : List String) (envp : List String)
  deriving DecidableEq, Repr

/-- Computations of the payload process: state passing with early exit. -/
def ChildM (α : Type) : Type := ChildState → Except ChildEnd α × ChildState

instance : Monad ChildM where
  pure a := fun s => (Except.ok a, s)
  bind m f := fun s =>
    match m s with
    | (Except.ok a, s1) => f a s1
    | (Except.error e, s1) => (Except.error e, s1)

namespace ChildM

/-- Leave the process. -/
def leave {α : Type} (e : ChildEnd) : ChildM α := fun s => (Except.error e, s)

/-- Read the current value of `errno`. -/
def getErrno : ChildM Int := fun s => (Except.ok s.errno, s)

/-- Read the task's `Wfd` member. -/
def getWfd : ChildM Int := fun s => (Except.ok s.Wfd, s)

/-- Assign the task's `Wfd` member. -/
def setWfd (fd : Int) : ChildM Unit := fun s => (Except.ok (), { s with Wfd := fd })

/-- Read the process environment. -/
def getEnviron : ChildM (List String) := fun s => (Except.ok s.environ, s)

/-- A call whose result is not looked at by the code. -/
def call (c : Call) : ChildM Unit :=
  fun s => (Except.ok (), { s with trace := s.trace ++ [⟨c, Outcome.ok 0⟩] })

/-- A system call at site `st`: 0 on success; on failure -1, with `errno`
set. -/
def sys (w : ChildWorld) (st : Step) (c : Call) : ChildM Int := fun s =>
  match w.fail st with
  | none => (Except.ok 0, { s with trace := s.trace ++ [⟨c, Outcome.ok 0⟩] })
  | some e => (Except.ok (-1), { s with errno := e, trace := s.trace ++ [⟨c, Outcome.fail e⟩] })

end ChildM

/-- The lowest descriptor number that is not open. -/
def lowestFree (fds : List (Int × String)) : Int :=
  Int.ofNat (((List.range (fds.length + 1)).find?
    (fun n => !(fds.any (fun p => p.1 == Int.ofNat n)))).getD fds.length)

/-- The call `close(fd)`. -/
def sysClose (fd : Int) : ChildM Unit := fun s =>
  (Except.ok (), { s with fds := s.fds.filter (fun p => p.1 != fd),
                          trace := s.trace ++ [⟨Call.close fd, Outcome.ok 0⟩] })

/-- The call `open(path, flags, mode)` at site `st`: the lowest free
descriptor on success; on failure -1, with `errno` set. -/
def sysOpen (w : ChildWorld) (st : Step) (path : String) (flags mode : Nat) : ChildM Int :=
  fun s =>
    match w.fail st with
    | none =>
      let fd := lowestFree s.fds
      (Except.ok fd, { s with fds := s.fds ++ [(fd, path)],
                              trace := s.trace ++ [⟨Call.openFile path flags mode, Outcome.ok fd⟩] })
    | some e =>
      (Except.ok (-1), { s with errno := e,
                                trace := s.trace ++ [⟨Call.openFile path flags mode, Outcome.fail e⟩] })

/-- A `TMount` operation (`Remount`, `Bind`, `Mount`) at site `st`; the
result is true when the operation returned an error, in which case the errno
of the failed mount call is left in `errno`. -/
def mountOp (w : ChildWorld) (st : Step) (c : Call) : ChildM Bool := fun s =>
  match w.fail st with
  | none => (Except.ok false, { s with trace := s.trace ++ [⟨c, Outcome.ok 0⟩] })
  | some e => (Except.ok true, { s with errno := e, trace := s.trace ++ [⟨c, Outcome.fail e⟩] })

/-- The call `cg->Attach(getpid())` for the i-th leaf cgroup. -/
def cgAttach (w : ChildWorld) (i : Nat) (cg : TCgroup) : ChildM TError := fun s =>
  (Except.ok (w.attach i),
    { s with trace := s.trace ++ [⟨Call.Attach cg.Relpath, Outcome.error (w.attach i)⟩] })

/-- The call `clearenv()`. -/
def sysClearenv : ChildM Unit := fun s =>
  (Except.ok (), { s with environ := [], trace := s.trace ++ [⟨Call.clearenv, Outcome.ok 0⟩] })

/-- The call `wordexp(command, &result, flags)`: the return code and the
words, expanded against the process environment. -/
def sysWordexp (w : ChildWorld) (command : String) (flags : Nat) : ChildM (Int × List String) :=
  fun s =>
    let r := w.wordexp s.environ command flags
    (Except.ok r, { s with trace := s.trace ++ [⟨Call.wordexp command flags, Outcome.ok r.1⟩] })

/-- The call `execvpe(file, argv, envp)`: on success the process image is
replaced and `ChildCallback` is left; on failure -1, with `errno` set. -/
def sysExecvpe (w : ChildWorld) (file : Option String) (argv envp : List String) : ChildM Int :=
  fun s =>
    match w.fail Step.execvpe with
    | none =>
      (Except.error (ChildEnd.execed file argv envp),
        { s with trace := s.trace ++ [⟨Call.execvpe file argv envp, Outcome.ok 0⟩] })
    | some e =>
      (Except.ok (-1), { s with errno := e,
                                trace := s.trace ++ [⟨Call.execvpe file argv envp, Outcome.fail e⟩] })

/-- What the write on the status pipe gives back: four bytes written, or a
failure with its errno. -/
def ChildWorld.writeOutcome (w : ChildWorld) : Outcome :=
  match w.write with
  | none => Outcome.ok 4
  | some e => Outcome.fail e

/-- `TTask::Syslog`. -/
def Syslog (msg : String) : ChildM Unit := fun s =>
  (Except.ok (), { s with syslog := s.syslog ++ [msg] })

/-- `TTask::ReportResultAndExit`: write `result` on `fd`, ignore whether the
write worked, and exit with `EXIT_FAILURE`. -/
def ReportResultAndExit (w : ChildWorld) (fd : Int) (result : Int) : ChildM Unit := fun s =>
  (Except.error (ChildEnd.reported fd result),
    { s with trace := s.trace ++ [⟨Call.write fd result, w.writeOutcome⟩] })

/-- `TTask::CloseAllFds`: close every descriptor below `getdtablesize()`
other than `except`, and return `except`. -/
def CloseAllFds (w : ChildWorld) (except : Int) : ChildM Int := fun s =>
  let keep : Int × String → Bool :=
    fun p => !(decide (0 ≤ p.1) && decide (p.1 < w.dtablesize) && p.1 != except)
  (Except.ok except, { s with fds := s.fds.filter keep })

/-- The loop of `ChildCallback` that moves the process to its leaf cgroups;
`i` is the index of the first cgroup of the list. -/
def attachLeafCgroups (w : ChildWorld) : Nat → List TCgroup → ChildM Unit
  | _, [] => pure ()
  | i, cg :: rest => do
    let error ← cgAttach w i cg
    (if error.isError then do
      Syslog ("cgroup attach: " ++ error.GetMsg)
      ReportResultAndExit w (← ChildM.getWfd) (-error.GetError)
    else pure ())
    attachLeafCgroups w (i + 1) rest

/-- `TTask::ChildCallback`, run in the cloned payload process. -/
def TTask.ChildCallback (t : TTask) (w : ChildWorld) : ChildM Int := do
  sysClose t.Rfd
  ChildM.call Call.ResetAllSignalHandlers

  (if (← ChildM.sys w Step.prctl (Call.prctl PR_SET_KEEPCAPS 0)) < 0 then do
    Syslog ("prctl(PR_SET_KEEPCAPS): " ++ w.strerror (← ChildM.getErrno))
    ReportResultAndExit w (← ChildM.getWfd) (-(← ChildM.getErrno))
  else pure ())

  (if (← ChildM.sys w Step.setsid Call.setsid) < 0 then do
    Syslog ("setsid(): " ++ w.strerror (← ChildM.getErrno))
    ReportResultAndExit w (← ChildM.getWfd) (-(← ChildM.getErrno))
  else pure ())

  (if (← mountOp w Step.procRemount (Call.Remount "proc" "/proc" "proc")) then do
    Syslog ("remount procfs: " ++ w.strerror (← ChildM.getErrno))
    ReportResultAndExit w (← ChildM.getWfd) (-(← ChildM.getErrno))
  else pure ())

  attachLeafCgroups w 0 t.LeafCgroups

  ChildM.setWfd (← CloseAllFds w (← ChildM.getWfd))
  (if (← ChildM.getWfd) < 0 then do
    Syslog ("close fds: " ++ w.strerror (← ChildM.getErrno))
    (ChildM.leave (ChildEnd.exited 0xAA) : ChildM Unit)
  else pure ())

  let ret ← sysOpen w Step.open0 "/dev/null" O_RDONLY 0
  (if ret < 0 then do
    Syslog ("open(0): " ++ w.strerror (← ChildM.getErrno))
    ReportResultAndExit w (← ChildM.getWfd) (-(← ChildM.getErrno))
  else pure ())

  let ret ← sysOpen w Step.open1 t.StdoutFile (O_WRONLY ||| O_CREAT ||| O_TRUNC ||| O_APPEND) 0o700
  (if ret < 0 then do
    Syslog ("open(1): " ++ w.strerror (← ChildM.getErrno))
    ReportResultAndExit w (← ChildM.getWfd) (-(← ChildM.getErrno))
  else pure ())

  let ret ← ChildM.sys w Step.fchown1 (Call.fchown ret t.Env.Uid t.Env.Gid)
  (if ret < 0 then do
    Syslog ("fchown(1): " ++ w.strerror (← ChildM.getErrno))
    ReportResultAndExit w (← ChildM.getWfd) (-(← ChildM.getErrno))
  else pure ())

  let ret ← sysOpen w Step.open2 t.StderrFile (O_WRONLY ||| O_CREAT ||| O_TRUNC ||| O_APPEND) 0o700
  (if ret < 0 then do
    Syslog ("open(2): " ++ w.strerror (← ChildM.getErrno))
    ReportResultAndExit w (← ChildM.getWfd) (-(← ChildM.getErrno))
  else pure ())

  let ret ← ChildM.sys w Step.fchown2 (Call.fchown ret t.Env.Uid t.Env.Gid)
  (if ret < 0 then do
    Syslog ("fchown(2): " ++ w.strerror (← ChildM.getErrno))
    ReportResultAndExit w (← ChildM.getWfd) (-(← ChildM.getErrno))
  else pure ())

  (if t.Env.Root.length ≠ 0 then do
    (if (← mountOp w Step.bindRoot (Call.Bind t.Env.Root (t.Env.Root ++ "/"))) then do
      Syslog ("remount /: " ++ w.strerror (← ChildM.getErrno))
      ReportResultAndExit w (← ChildM.getWfd) (-(← ChildM.getErrno))
    else pure ())

    (if (← mountOp w Step.bindTmp (Call.Bind "/tmp" (t.Env.Root ++ "/tmp"))) then do
      Syslog ("remount /tmp: " ++ w.strerror (← ChildM.getErrno))
      ReportResultAndExit w (← ChildM.getWfd) (-(← ChildM.getErrno))
    else pure ())

    (if (← mountOp w Step.bindSys (Call.Bind "/sys" (t.Env.Root ++ "/sys"))) then do
      Syslog ("remount /sys: " ++ w.strerror (← ChildM.getErrno))
      ReportResultAndExit w (← ChildM.getWfd) (-(← ChildM.getErrno))
    else pure ())

    (if (← mountOp w Step.bindRun (Call.Bind "/run" (t.Env.Root ++ "/run"))) then do
      Syslog ("remount /run: " ++ w.strerror (← ChildM.getErrno))
      ReportResultAndExit w (← ChildM.getWfd) (-(← ChildM.getErrno))
    else pure ())

    (if (← mountOp w Step.bindDev (Call.Bind "/dev" (t.Env.Root ++ "/dev"))) then do
      Syslog ("remount /dev: " ++ w.strerror (← ChildM.getErrno))
      ReportResultAndExit w (← ChildM.getWfd) (-(← ChildM.getErrno))
    else pure ())

    (if (← mountOp w Step.bindVar (Call.Bind "/var" (t.Env.Root ++ "/var"))) then do
      Syslog ("remount /var: " ++ w.strerror (← ChildM.getErrno))
      ReportResultAndExit w (← ChildM.getWfd) (-(← ChildM.getErrno))
    else pure ())

    (if (← mountOp w Step.mountProc (Call.Mount "proc" (t.Env.Root ++ "/proc") "proc")) then do
      Syslog ("remount /proc: " ++ w.strerror (← ChildM.getErrno))
      ReportResultAndExit w (← ChildM.getWfd) (-(← ChildM.getErrno))
    else pure ())

    (if (← ChildM.sys w Step.chdirRoot (Call.chdir t.Env.Root)) < 0 then do
      Syslog ("chdir(): " ++ w.strerror (← ChildM.getErrno))
      ReportResultAndExit w (← ChildM.getWfd) (-(← ChildM.getErrno))
    else pure ())

    (if (← ChildM.sys w Step.chroot (Call.chroot t.Env.Root)) < 0 then do
      Syslog ("chroot(): " ++ w.strerror (← ChildM.getErrno))
      ReportResultAndExit w (← ChildM.getWfd) (-(← ChildM.getErrno))
    else pure ())

    (if (← ChildM.sys w Step.chdirSlash (Call.chdir "/")) < 0 then do
      Syslog ("chdir(): " ++ w.strerror (← ChildM.getErrno))
      ReportResultAndExit w (← ChildM.getWfd) (-(← ChildM.getErrno))
    else pure ())
  else pure ())

  (if t.Env.Cwd.length ≠ 0 then do
    (if (← ChildM.sys w Step.chdirCwd (Call.chdir t.Env.Cwd)) < 0 then do
      Syslog ("chdir(): " ++ w.strerror (← ChildM.getErrno))
      ReportResultAndExit w (← ChildM.getWfd) (-(← ChildM.getErrno))
    else pure ())
  else pure ())

  (if (← ChildM.sys w Step.setgid (Call.setgid t.Env.Gid)) < 0 then do
    Syslog ("setgid(): " ++ w.strerror (← ChildM.getErrno))
    ReportResultAndExit w (← ChildM.getWfd) (-(← ChildM.getErrno))
  else pure ())

  (if (← ChildM.sys w Step.initgroups (Call.initgroups t.Env.User t.Env.Gid)) < 0 then do
    Syslog ("initgroups(): " ++ w.strerror (← ChildM.getErrno))
    ReportResultAndExit w (← ChildM.getWfd) (-(← ChildM.getErrno))
  else pure ())

  (if (← ChildM.sys w Step.setuid (Call.setuid t.Env.Uid)) < 0 then do
    Syslog ("setuid(): " ++ w.strerror (← ChildM.getErrno))
    ReportResultAndExit w (← ChildM.getWfd) (-(← ChildM.getErrno))
  else pure ())

  ChildM.call (Call.umask 0)
  sysClearenv

  let result ← sysWordexp w t.Env.Command (WRDE_NOCMD ||| WRDE_UNDEF)
  let ret := result.1
  (if ret = WRDE_BADCHAR then do
    Syslog "wordexp(): illegal occurrence of newline or one of |, &, ;, <, >, (, ), \x7b, \x7d"
    ReportResultAndExit w (← ChildM.getWfd) (-EINVAL)
  else if ret = WRDE_BADVAL then do
    Syslog "wordexp(): undefined shell variable was referenced"
    ReportResultAndExit w (← ChildM.getWfd) (-EINVAL)
  else if ret = WRDE_CMDSUB then do
    Syslog "wordexp(): command substitution is not supported"
    ReportResultAndExit w (← ChildM.getWfd) (-EINVAL)
  else if ret = WRDE_SYNTAX then do
    Syslog "wordexp(): syntax error"
    ReportResultAndExit w (← ChildM.getWfd) (-EINVAL)
  else if ret ≠ 0 then do
    Syslog ("wordexp(): error " ++ w.strerror ret)
    ReportResultAndExit w (← ChildM.getWfd) (-EINVAL)
  else pure ())

  let envp := t.Env.GetEnvp
  let _ ← sysExecvpe w result.2.head? result.2 envp

  Syslog ("execvpe(): " ++ w.strerror (← ChildM.getErrno))
  ReportResultAndExit w (← ChildM.getWfd) (← ChildM.getErrno)

  return 0

/-- The state in which the payload process enters `ChildCallback`. -/
def ChildState.init (t : TTask) (w : ChildWorld) : ChildState :=
  { Wfd := t.Wfd, errno := 0, fds := w.fds, environ := w.environ, trace := [], syslog := [] }

/-- One run of the payload process: how `ChildCallback` ends, and the final
process state. -/
def TTask.runChild (t : TTask) (w : ChildWorld) : Except ChildEnd Int × ChildState :=
  t.ChildCallback w (ChildState.init t w)

/-- How the payload process leaves `ChildCallback`; `none` would be a plain
return from the function. -/
def TTask.childEnd (t : TTask) (w : ChildWorld) : Option ChildEnd :=
  match (t.runChild w).1 with
  | Except.error e => some e
  | Except.ok _ => none

/-! ## The status pipe between payload and daemon -/

/-- What the daemon's second `read` on the status pipe finds once the payload
process has run.  The pipe is close-on-exec and the payload holds its last
write end, so the daemon reads the `int` the payload wrote if a write on the
pipe succeeded, and end-of-file (zero bytes) if the payload exec'ed or
exited without a successful write. -/
def statusRead (trace : List Event) : ReadRet :=
  match trace.getLast? with
  | some ⟨Call.write _ v, Outcome.ok _⟩ => ⟨4, 0, v⟩
  | _ => ⟨0, 0, 0⟩

/-- The task as the payload process sees it: the copy made by `fork` and
`clone` in `Start`, after the output files and the pipe descriptors were
assigned. -/
def TTask.forked (t : TTask) (w : StartWorld) : TTask :=
  let t := { t with ExitStatus := ⟨0, 0⟩ }
  let t := { t with
    StdoutFile := if t.Env.Cwd.length ≠ 0 then t.Env.Cwd ++ "/stdout" else GetTmpFile w.mkstemp1,
    StderrFile := if t.Env.Cwd.length ≠ 0 then t.Env.Cwd ++ "/stderr" else GetTmpFile w.mkstemp2 }
  { t with Rfd := w.pfd.1, Wfd := w.pfd.2 }

/-- A whole launch seen from the daemon: `Start` in the daemon process, the
second read on the pipe being answered by the run of `ChildCallback` in the
payload process. -/
def TTask.launch (t : TTask) (sw : StartWorld) (cw : ChildWorld) : StartResult :=
  t.Start { sw with readResult := statusRead ((t.forked sw).runChild cw).2.trace }

/-! ## A small model of libc word expansion -/

/-- The libc `getenv` on an environment of `NAME=value` entries. -/
def getenv (environ : List String) (name : String) : Option String :=
  environ.findSome? (fun entry =>
    if (name.data ++ ['=']).isPrefixOf entry.data then
      some (String.mk (entry.data.drop (name.length + 1)))
    else none)

/-- Cut a character list into its blank-separated words; `cur` holds the
current word, reversed. -/
def wordsOf : List Char → List Char → List (List Char)
  | [], cur => if cur.isEmpty then [] else [cur.reverse]
  | c :: rest, cur =>
    if c = ' ' then
      (if cur.isEmpty then [] else [cur.reverse]) ++ wordsOf rest []
    else wordsOf rest (c :: cur)

/-- Expand the words of a command one by one: a word `$NAME` becomes the
value of `NAME` in the environment; when `NAME` is not set the expansion
stops with `WRDE_BADVAL` if `undef` is set and drops the word otherwise. -/
def expandWords (environ : List String) (undef : Bool) : List (List Char) → Int × List String
  | [] => (0, [])
  | word :: rest =>
    match word with
    | '$' :: name =>
      match getenv environ (String.mk name) with
      | some v =>
        let r := expandWords environ undef rest
        (r.1, if r.1 = 0 then v :: r.2 else [])
      | none =>
        if undef then (WRDE_BADVAL, [])
        else expandWords environ undef rest
    | _ =>
      let r := expandWords environ undef rest
      (r.1, if r.1 = 0 then String.mk word :: r.2 else [])

/-- A model of the libc call `wordexp` for commands made of blank-separated
words without quoting, each word being plain text or a reference `$NAME`.
Variables are looked up in the process environment, as libc does. -/
def wordexpPlain (environ : List String) (command : String) (flags : Nat) : Int × List String :=
  expandWords environ (decide (flags &&& WRDE_UNDEF ≠ 0)) (wordsOf command.data [])

/-! ## Reasoning about how the payload process ends -/

/-- `m.Ends E`: whenever the computation `m` leaves the process, the way it
left and the final state satisfy `E`. -/
def ChildM.Ends {α : Type} (m : ChildM α) (E : ChildEnd → ChildState → Prop) : Prop :=
  ∀ s e s1, m s = (Except.error e, s1) → E e s1

/-- A process that left through `ReportResultAndExit(fd, v)` made the write
of `v` on `fd` as its last call. -/
def reportIsLastCall (w : ChildWorld) (e : ChildEnd) (s : ChildState) : Prop :=
  ∀ fd v, e = ChildEnd.reported fd v →
    s.trace.getLast? = some ⟨Call.write fd v, w.writeOutcome⟩

/-- The world `w` with its word expansion only ever given the empty
environment. -/
def ChildWorld.blindWordexp (w : ChildWorld) : ChildWorld :=
  { w with wordexp := fun _ command flags => w.wordexp [] command flags }

/-! ## Concrete inputs used by the evaluations below -/

def EPERM : Int := 1
def EINTR : Int := 4

/-- A task environment of user and group `porto-alice` with no root
directory. -/
def aliceEnv (command cwd envir : String) : TTaskEnv :=
  { Command := command, Cwd := cwd, Root := "", User := "porto-alice", Group := "porto-alice",
    Envir := envir, Env := [], Uid := 0, Gid := 0 }

/-- An account database whose only account and group is `porto-alice`, with
the plain string helper. -/
def accounts : PrepareWorld :=
  { SplitString := SplitString, errno := 0,
    getpwnam := fun u => if u = "porto-alice" then some 1001 else none,
    getgrnam := fun g => if g = "porto-alice" then some 1001 else none }

/-- The daemon side of a launch in which `pipe2` and `fork` succeed, the stub
sends pid 101, and the second read on the pipe returns `n` bytes holding
`v`. -/
def statusWorld (n : Int) (v : Int) : StartWorld :=
  { mkstemp1 := (3, "/tmp/stdout"), mkstemp2 := (3, "/tmp/stderr"),
    pipe2 := ⟨0, 0⟩, pfd := (5, 6), fork := ⟨100, 0⟩, clone := ⟨101, 0⟩,
    readPid := ⟨4, 0, 101⟩, readResult := ⟨n, 0, v⟩, strerror := fun _ => "" }

/-- The same launch seen from the stub process, where `fork` returns 0. -/
def stubWorld : StartWorld :=
  { statusWorld 0 0 with fork := ⟨0, 0⟩ }

/-- A payload process in which every call succeeds. -/
def quietChild : ChildWorld :=
  { fail := fun _ => none, attach := fun _ => TError.Success, write := none, dtablesize := 1024,
    fds := [(0, "/dev/pts/0"), (1, "/dev/pts/0"), (2, "/dev/pts/0"), (5, "pipe:r"), (6, "pipe:w")],
    environ := ["PATH=/usr/bin:/bin"], wordexp := wordexpPlain, strerror := fun _ => "" }

/-- A prepared task of container `a` running `command` in `cwd` with the
`env` property `envir`. -/
def aliceTask (command cwd envir : String) : TTask :=
  TTask.fresh ((aliceEnv command cwd envir).Prepare accounts).2 [⟨"/porto/a"⟩, ⟨"/porto%a"⟩]

/-- The payload process whose `chdir` to the working directory fails with
`ENOENT`. -/
def badCwdChild : ChildWorld :=
  { quietChild with fail := fun s => if s = Step.chdirCwd then some ENOENT else none }

/-- The payload process whose cgroup attach fails with an error of kind
`Unknown`, the failed call having left errno `e`. -/
def attachFailChild (e : Int) : ChildWorld :=
  { quietChild with attach := fun _ => ⟨EError.Unknown, e, "write(tasks)"⟩ }

/-- The payload process whose `prctl` fails with `EPERM` and whose write on
the status pipe fails as well. -/
def muteChild : ChildWorld :=
  { quietChild with fail := fun s => if s = Step.prctl then some EPERM else none,
                    write := some EINTR }

/-- The payload process in which the call at site `st` fails with errno `e`
and every other call succeeds. -/
def onlyFails (st : Step) (e : Int) : ChildWorld :=
  { quietChild with fail := fun s => if s = st then some e else none }

/-- A prepared task with a root directory and a working directory, so that
every call site of `ChildCallback` is reached. -/
def rootedTask : TTask :=
  TTask.fresh (({ aliceEnv "sleep 1000" "/work" "" with Root := "/place/root" } : TTaskEnv).Prepare
    accounts).2 [⟨"/porto/a"⟩, ⟨"/porto%a"⟩]

/-- The value the comment in `ChildCallback` announces for a call that failed
with errno `e`: the errno for `execvpe`, the negated errno before it. -/
def announcedReport (st : Step) (e : Int) : Int :=
  match st with
  | Step.execvpe => e
  | _ => -e

/-- The payload process whose `execvpe` fails with errno `e`. -/
def execFailChild (e : Int) : ChildWorld :=
  { quietChild with fail := fun s => if s = Step.execvpe then some e else none }

/-! ## `TTask::Kill` -/

/-- How `TTask::Kill` ends: it throws, or it calls `kill(pid, signal)` (whose
result is only logged). -/
inductive KillResult
  | thrown (what : String)
  | signalled (pid : Int) (signal : Int)
  deriving DecidableEq, Repr

/-- `TTask::Kill`. -/
def TTask.Kill (t : TTask) (signal : Int) : KillResult :=
  if t.Pid = 0 then
    KillResult.thrown "Tried to kill invalid process!"
  else
    KillResult.signalled t.Pid signal

/-! ## `TTask::Restore` and `TTask::ValidateCgroups` -/

/-- A computation that may index a vector beyond its size, which the source
language leaves undefined: `outOfRange i size` records the index and the
size of the vector. -/
inductive Run (α : Type)
  | done (a : α)
  | outOfRange (index : Nat) (size : Nat)
  deriving DecidableEq, Repr

/-- What procfs and the string helper answer during a restore: `ReadLink`
gives the result and the link target, `AsLines` the result and the lines of
a file, `SplitString` the helper's result and the tokens. -/
structure ProcWorld where
  ReadLink : String → TError × String
  AsLines : String → TError × List String
  SplitString : String → Char → TError × List String

/-- The loop of `ValidateCgroups` over the lines of the cgroup file. -/
def validateLines (cgs : List TCgroup) (w : ProcWorld) : List String → Run TError
  | [] => Run.done TError.Success
  | l :: rest =>
    let split := w.SplitString l ':'
    let tokens := split.2
    if split.1.isError then
      Run.done split.1
    else
      match tokens with
      | [] => Run.outOfRange 1 0
      | [_] => Run.outOfRange 1 1
      | [_, _] => Run.outOfRange 2 2
      | _ :: subsys :: path :: _ =>
        let valid := cgs.any (fun cg => cg.Relpath == path)
        if !valid then
          Run.done (TError.mk2 EError.Unknown
            ("Task belongs to invalid subsystem " ++ subsys ++ ":" ++ path))
        else
          validateLines cgs w rest

/-- `TTask::ValidateCgroups`. -/
def TTask.ValidateCgroups (t : TTask) (w : ProcWorld) : Run TError :=
  let file := w.AsLines ("/proc/" ++ toString t.Pid ++ "/cgroup")
  if file.1.isError then
    Run.done file.1
  else
    validateLines t.LeafCgroups w file.2

/-- `TTask::Restore`. -/
def TTask.Restore (t : TTask) (pid_ : Int) (w : ProcWorld) : Run (TError × TTask) :=
  let t := { t with ExitStatus := ⟨0, 0⟩ }
  let stdoutLink := w.ReadLink ("/proc/" ++ toString pid_ ++ "/fd/1")
  let t := { t with
    StdoutFile := if stdoutLink.1.isError then t.Env.Cwd ++ "/stdout" else stdoutLink.2 }
  let stderrLink := w.ReadLink ("/proc/" ++ toString pid_ ++ "/fd/2")
  let t := { t with
    StderrFile := if stderrLink.1.isError then t.Env.Cwd ++ "/stderr" else stderrLink.2 }
  let t := { t with Pid := pid_, State := ETaskState.Started }
  match t.ValidateCgroups w with
  | Run.done _ => Run.done (TError.Success, t)
  | Run.outOfRange i n => Run.outOfRange i n

/-! ## `TTask::RotateFile` -/

/-- The regular files of the file system: the size of each existing file. -/
def Files : Type := String → Option Int

/-- Failures the kernel injects into `stat` and `truncate` on existing
files: the errno, if the call on that path fails. -/
structure FsWorld where
  statErr : String → Option Int
  truncateErr : String → Option Int

/-- `TTask::RotateFile`, with the macro `CONTAINER_MAX_LOG_SIZE` (whose
definition is not among the sources) as a parameter.  A missing file makes
`stat` fail with `ENOENT`; a successful `truncate(path, 0)` leaves the file
with size 0. -/
def RotateFile (CONTAINER_MAX_LOG_SIZE : Int) (w : FsWorld) (fs : Files) (path : String) :
    TError × Files :=
  match fs path with
  | none => (⟨EError.Unknown, ENOENT, "stat(" ++ path ++ ")"⟩, fs)
  | some st_size =>
    match w.statErr path with
    | some e => (⟨EError.Unknown, e, "stat(" ++ path ++ ")"⟩, fs)
    | none =>
      if st_size > CONTAINER_MAX_LOG_SIZE then
        match w.truncateErr path with
        | some e => (⟨EError.Unknown, e, "truncate(" ++ path ++ ")"⟩, fs)
        | none => (TError.Success, fun p => if p = path then some 0 else fs p)
      else
        (TError.Success, fs)

/-- `TTask::Rotate`. -/
def TTask.Rotate (t : TTask) (CONTAINER_MAX_LOG_SIZE : Int) (w : FsWorld) (fs : Files) :
    TError × Files :=
  let r1 := RotateFile CONTAINER_MAX_LOG_SIZE w fs t.StdoutFile
  if r1.1.isError then
    r1
  else
    let r2 := RotateFile CONTAINER_MAX_LOG_SIZE w r1.2 t.StderrFile
    if r2.1.isError then
      r2
    else
      (TError.Success, r2.2)

/-! ## The run of the payload process up to a successful `execvpe` -/

/-- The calls of the attach loop, from the i-th leaf cgroup on, with what
each returned. -/
def attachEvents (w : ChildWorld) : Nat → List TCgroup → List Event
  | _, [] => []
  | i, cg :: rest =>
    ⟨Call.Attach cg.Relpath, Outcome.error (w.attach i)⟩ :: attachEvents w (i + 1) rest

/-- The descriptor table after `close(Rfd)` and `CloseAllFds(Wfd)`. -/
def closedFds (w : ChildWorld) (Rfd Wfd : Int) (fds : List (Int × String)) :
    List (Int × String) :=
  (fds.filter (fun p => p.1 != Rfd)).filter
    (fun p => !(decide (0 ≤ p.1) && decide (p.1 < w.dtablesize) && p.1 != Wfd))

/-- The descriptor table with which the payload reaches `execvpe`: what is
left after the two rounds of closing, then the three standard streams, each
on the lowest free descriptor at the time it is opened. -/
def launchFds (t : TTask) (w : ChildWorld) (Wfd : Int) (fds : List (Int × String)) :
    List (Int × String) :=
  let fds0 := closedFds w t.Rfd Wfd fds
  let fds1 := fds0 ++ [(lowestFree fds0, "/dev/null")]
  let fds2 := fds1 ++ [(lowestFree fds1, t.StdoutFile)]
  fds2 ++ [(lowestFree fds2, t.StderrFile)]

/-- The calls of a run of `ChildCallback` that reaches a successful
`execvpe`, in order, each with what it returned. -/
def launchEvents (t : TTask) (w : ChildWorld) (Wfd : Int) (fds : List (Int × String)) :
    List Event :=
  let fds0 := closedFds w t.Rfd Wfd fds
  let fds1 := fds0 ++ [(lowestFree fds0, "/dev/null")]
  let fds2 := fds1 ++ [(lowestFree fds1, t.StdoutFile)]
  let words := (w.wordexp [] t.Env.Command (WRDE_NOCMD ||| WRDE_UNDEF)).2
  [⟨Call.close t.Rfd, Outcome.ok 0⟩,
   ⟨Call.ResetAllSignalHandlers, Outcome.ok 0⟩,
   ⟨Call.prctl PR_SET_KEEPCAPS 0, Outcome.ok 0⟩,
   ⟨Call.setsid, Outcome.ok 0⟩,
   ⟨Call.Remount "proc" "/proc" "proc", Outcome.ok 0⟩] ++
  attachEvents w 0 t.LeafCgroups ++
  [⟨Call.openFile "/dev/null" O_RDONLY 0, Outcome.ok (lowestFree fds0)⟩,
   ⟨Call.openFile t.StdoutFile (O_WRONLY ||| O_CREAT ||| O_TRUNC ||| O_APPEND) 0o700,
     Outcome.ok (lowestFree fds1)⟩,
   ⟨Call.fchown (lowestFree fds1) t.Env.Uid t.Env.Gid, Outcome.ok 0⟩,
   ⟨Call.openFile t.StderrFile (O_WRONLY ||| O_CREAT ||| O_TRUNC ||| O_APPEND) 0o700,
     Outcome.ok (lowestFree fds2)⟩,
   ⟨Call.fchown (lowestFree fds2) t.Env.Uid t.Env.Gid, Outcome.ok 0⟩] ++
  (if t.Env.Root.length ≠ 0 then
    [⟨Call.Bind t.Env.Root (t.Env.Root ++ "/"), Outcome.ok 0⟩,
     ⟨Call.Bind "/tmp" (t.Env.Root ++ "/tmp"), Outcome.ok 0⟩,
     ⟨Call.Bind "/sys" (t.Env.Root ++ "/sys"), Outcome.ok 0⟩,
     ⟨Call.Bind "/run" (t.Env.Root ++ "/run"), Outcome.ok 0⟩,
     ⟨Call.Bind "/dev" (t.Env.Root ++ "/dev"), Outcome.ok 0⟩,
     ⟨Call.Bind "/var" (t.Env.Root ++ "/var"), Outcome.ok 0⟩,
     ⟨Call.Mount "proc" (t.Env.Root ++ "/proc") "proc", Outcome.ok 0⟩,
     ⟨Call.chdir t.Env.Root, Outcome.ok 0⟩,
     ⟨Call.chroot t.Env.Root, Outcome.ok 0⟩,
     ⟨Call.chdir "/", Outcome.ok 0⟩]
   else []) ++
  (if t.Env.Cwd.length ≠ 0 then [⟨Call.chdir t.Env.Cwd, Outcome.ok 0⟩] else []) ++
  [⟨Call.setgid t.Env.Gid, Outcome.ok 0⟩,
   ⟨Call.initgroups t.Env.User t.Env.Gid, Outcome.ok 0⟩,
   ⟨Call.setuid t.Env.Uid, Outcome.ok 0⟩,
   ⟨Call.umask 0, Outcome.ok 0⟩,
   ⟨Call.clearenv, Outcome.ok 0⟩,
   ⟨Call.wordexp t.Env.Command (WRDE_NOCMD ||| WRDE_UNDEF), Outcome.ok 0⟩,
   ⟨Call.execvpe words.head? words t.Env.GetEnvp, Outcome.ok 0⟩]

/-- The task `Start` leaves in the daemon process, if it returns there. -/
def StartResult.task : StartResult → Option TTask
  | .parent _ t => some t
  | .stubExit _ _ => none
  | .stubReturn _ _ _ => none

/-! ## Concrete inputs for the recovery, kill and rotation evaluations -/

def EMFILE : Int := 24

/-- The task of container `a` after a successful launch of `sleep 1` in which
the stub sent pid 101. -/
def startedTask : TTask :=
  { aliceTask "sleep 1" "" "" with
    Pid := 101, State := ETaskState.Started,
    StdoutFile := "/tmp/stdout", StderrFile := "/tmp/stderr", Rfd := 5, Wfd := 6 }

/-- The same task once its payload has exited with wait status 0. -/
def deadTask : TTask := startedTask.DeliverExitStatus 0

/-- The daemon side of a launch in which `pipe2` fails with `EMFILE`. -/
def noPipeWorld : StartWorld :=
  { statusWorld 0 0 with pipe2 := ⟨-1, EMFILE⟩ }

/-- A procfs in which the links of the standard streams cannot be read and
the cgroup file of every process has the given lines. -/
def procWith (lines : List String) : ProcWorld :=
  { ReadLink := fun _ => (⟨EError.Unknown, ENOENT, "readlink"⟩, ""),
    AsLines := fun _ => (TError.Success, lines),
    SplitString := SplitString }

/-- A kernel that injects no failure into `stat` and `truncate`. -/
def quietFs : FsWorld :=
  { statErr := fun _ => none, truncateErr := fun _ => none }

/-- A file system holding the two output files of `startedTask`, of 5000 and
10 bytes. -/
def logFiles : Files :=
  fun p => if p = "/tmp/stdout" then some 5000 else if p = "/tmp/stderr" then some 10 else none

/-- The files of a file system whose only file is `path`, of `size` bytes. -/
def oneFile (path : String) (size : Int) : Files :=
  fun p => if p = path then some size else none

/-- The payload process of a daemon started without standard streams, where
`pipe2` returned the descriptors 0 and 1. -/
def lowFdChild : ChildWorld :=
  { quietChild with fds := [(0, "pipe:r"), (1, "pipe:w")] }

/-- The daemon side of that launch. -/
def lowFdWorld : StartWorld :=
  { statusWorld 0 0 with pfd := (0, 1) }

/-! ## Which runs of the payload process reach `execvpe` -/

/-- The two calls that launch the command: the word expansion and
`execvpe`. -/
def Call.isLaunch : Call → Bool
  | Call.wordexp _ _ => true
  | Call.execvpe _ _ _ => true
  | _ => false

/-- `m.Keeps I E`: started in a state satisfying `I`, the computation `m`
either goes on in a state satisfying `I`, or leaves the process in a way and
in a state satisfying `E`. -/
def ChildM.Keeps {α : Type} (m : ChildM α) (I : ChildState → Prop)
    (E : ChildEnd → ChildState → Prop) : Prop :=
  ∀ s, I s →
    (∀ a s1, m s = (Except.ok a, s1) → I s1) ∧ (∀ e s1, m s = (Except.error e, s1) → E e s1)

/-- A process that has not reached the word expansion: its `Wfd` member is
`fd` and it has called neither `wordexp` nor `execvpe`. -/
def beforeExpansion (fd : Int) (s : ChildState) : Prop :=
  s.Wfd = fd ∧ ∀ ev ∈ s.trace, ev.call.isLaunch = false

/-- What holds at the end of a process whose word expansion returned a
non-zero code: it left through `ReportResultAndExit(fd, -EINVAL)` and never
called `execvpe`. -/
def expansionRefused (fd : Int) (e : ChildEnd) (s : ChildState) : Prop :=
  ∀ c f r, (⟨Call.wordexp c f, Outcome.ok r⟩ : Event) ∈ s.trace → r ≠ 0 →
    e = ChildEnd.reported fd (-EINVAL) ∧
    ∀ ev ∈ s.trace, ∀ file argv envp, ev.call ≠ Call.execvpe file argv envp

/-! ## The RPC server of `portod.cpp` -/

/-- What the kernel answers to the calls of `CreateRpcServer`: the return
values of `socket`, `bind` and `listen`. -/
structure RpcWorld where
  socket : Int
  bind : Int
  listen : Int
  deriving DecidableEq, Repr

/-- `CreateRpcServer`. -/
def CreateRpcServer (w : RpcWorld) : Int :=
  let fd := w.socket
  if fd < 0 then -1
  else if w.bind < 0 then -2
  else if w.listen < 0 then -3
  else 0

/-- What `main` of `portod.cpp` does with the result of `CreateRpcServer`:
leave with that value, or enter the loop that calls `accept` on it. -/
inductive MainStep
  | returned (code : Int)
  | accepts (sfd : Int)
  deriving DecidableEq, Repr

/-- The head of `main` in `portod.cpp`, up to the first `accept`. -/
def portodMain (w : RpcWorld) : MainStep :=
  let sfd := CreateRpcServer w
  if sfd < 0 then MainStep.returned sfd
  else MainStep.accepts sfd

/-! ## The command-line client (`src/src/cli.cpp`) -/

/-- The difference `a - b` of two `size_t` values, which wraps around
below zero. -/
def sizeSub (a b : Nat) : Nat := (((a : Int) - (b : Int)) % (2 ^ 64 : Int)).toNat

/-- The constructor `std::string(s, pos, n)`: at most `n` characters of `s`
from position `pos` on. -/
def substr (s : String) (pos n : Nat) : String := String.mk ((s.data.drop pos).take n)

/-- The output of `std::left << std::setw(width) << s`: `s`, filled with
blanks on the right up to `width` characters. -/
def setwLeft (width : Nat) (s : String) : String :=
  s ++ String.mk (List.replicate (width - s.length) ' ')

/-- One pass of the loop of `PrintAligned` at index `i`, on the vector `v`
and the position `start`. -/
def wrapStep (desc : String) (descWidth : Nat) (st : List String × Nat) (i : Nat) :
    List String × Nat :=
  if sizeSub i st.2 > descWidth then (st.1 ++ [substr desc st.2 (sizeSub i st.2)], i)
  else st

/-- The vector `v` that `PrintAligned` fills before it prints: the loop over
the description, then the rest of the description unless it is empty. -/
def wrapChunks (desc : String) (descWidth : Nat) : List String :=
  let st := (List.range desc.length).foldl (wrapStep desc descWidth) ([], 0)
  let last := substr desc st.2 desc.length
  if last.length ≠ 0 then st.1 ++ [last] else st.1

/-- `PrintAligned`: the lines written to the error stream.  The read of
`v[0]` is out of range when the vector is empty. -/
def PrintAligned (name desc : String) (nameWidth termWidth : Nat) : Run (List String) :=
  let descWidth := sizeSub (sizeSub termWidth nameWidth) 4
  let v := wrapChunks desc descWidth
  match v with
  | [] => Run.outOfRange 0 0
  | first :: rest =>
    Run.done (("  " ++ setwLeft nameWidth name ++ first) ::
      rest.map (fun chunk => "  " ++ setwLeft nameWidth " " ++ chunk))

/-- `MaxFieldLength`; the default of `min` is the macro `MIN_FIELD_LENGTH`. -/
def MaxFieldLength {α : Type} (coll : List α) (mapper : α → String) (min : Nat) : Nat :=
  let len := coll.foldl
    (fun len i => if (mapper i).length > len then (mapper i).length else len) 0
  max len min + 2

namespace OldCli

/-- `PrintAligned` of `src/cli.cpp`. -/
def PrintAligned (name desc : String) (nameWidth termWidth : Nat) : Run (List String) :=
  let descWidth := sizeSub (sizeSub termWidth nameWidth) 2
  let v := wrapChunks desc descWidth
  match v with
  | [] => Run.outOfRange 0 0
  | first :: rest =>
    Run.done ((" " ++ setwLeft nameWidth name ++ first) ::
      rest.map (fun chunk => " " ++ setwLeft nameWidth " " ++ chunk))

/-- `MaxFieldLength` of `src/cli.cpp`. -/
def MaxFieldLength (vec : List String) (min : Nat) : Nat :=
  let len := vec.foldl (fun len i => if i.length > len then i.length else len) 0
  (if len > min then len else min) + 1

end OldCli

/-- A command of the client: the members of `ICmd` that the help command
reads. -/
structure ICmd where
  Name : String
  Usage : String
  Desc : String
  Help : String
  NeedArgs : Int
  deriving DecidableEq, Repr

/-- `ICmd::GetName`. -/
def ICmd.GetName (c : ICmd) : String := c.Name

/-- `ICmd::GetDescription`. -/
def ICmd.GetDescription (c : ICmd) : String := c.Desc

/-- The command built by the constructor of `THelpCmd`. -/
def THelpCmd : ICmd :=
  { Name := "help", Usage := "[command]", Desc := "print help message for command", Help := "",
    NeedArgs := 1 }

/-- A property, volume property or data entry as the daemon lists it. -/
structure TPortoProperty where
  Name : String
  Description : String
  deriving DecidableEq, Repr

/-- A `TCommandHandler`: its map `Commands`, as the list of its entries; the
value of an entry is `none` for a null pointer. -/
structure TCommandHandler where
  Commands : List (String × Option ICmd)
  deriving DecidableEq, Repr

/-- The assignment `Commands[key] = value` on the map. -/
def mapAssign (m : List (String × Option ICmd)) (key : String) (value : Option ICmd) :
    List (String × Option ICmd) :=
  if m.any (fun p => p.1 == key) then m.map (fun p => if p.1 == key then (key, value) else p)
  else m ++ [(key, value)]

/-- The value of `Commands[key].get()`: the stored pointer, or a null pointer
for a key that was absent. -/
def mapGet (m : List (String × Option ICmd)) (key : String) : Option ICmd :=
  match m.find? (fun p => p.1 == key) with
  | some p => p.2
  | none => none

/-- `TCommandHandler::RegisterCommand`; `none` is the failure of
`PORTO_ASSERT(cmd)` on a null pointer. -/
def TCommandHandler.RegisterCommand (h : TCommandHandler) (cmd : Option ICmd) :
    Option TCommandHandler :=
  match cmd with
  | none => none
  | some c => some { h with Commands := mapAssign h.Commands c.GetName (some c) }

/-- The constructor of `TCommandHandler`. -/
def TCommandHandler.new : Option TCommandHandler :=
  TCommandHandler.RegisterCommand { Commands := [] } (some THelpCmd)

/-- A sequence of `RegisterCommand` calls, which stops at a failed
assertion. -/
def TCommandHandler.RegisterAll (h : TCommandHandler) : List (Option ICmd) →
    Option TCommandHandler
  | [] => some h
  | cmd :: rest =>
    match h.RegisterCommand cmd with
    | none => none
    | some h1 => TCommandHandler.RegisterAll h1 rest

/-- `TCommandHandler::Usage`: the command whose `Execute` is called and the
arguments it is given; `none` is the failure of `PORTO_ASSERT(cmd)`. -/
def TCommandHandler.Usage (h : TCommandHandler) (command : Option String) :
    Option (ICmd × List String) :=
  match mapGet h.Commands "help" with
  | none => none
  | some cmd =>
    let args := match command with
      | some c => [c]
      | none => []
    some (cmd, args)

/-- What the daemon and the terminal answer to `THelpCmd::Usage`: the result
of the `TIOCGWINSZ` ioctl with the column count it stores, and the results of
the three list requests. -/
structure HelpWorld where
  ioctl : Int
  ws_col : Nat
  ListVolumeProperties : Int × List TPortoProperty
  Plist : Int × List TPortoProperty
  Dlist : Int × List TPortoProperty

/-- One call of `PrintAligned` made by `THelpCmd::Usage`. -/
structure AlignedCall where
  name : String
  desc : String
  nameWidth : Nat
  termWidth : Nat
  deriving DecidableEq, Repr

/-- The sections `THelpCmd::Usage` prints, each with the `PrintAligned` calls
it makes; a section whose list request failed has none. -/
structure HelpSections where
  commands : List AlignedCall
  volumeProperties : List AlignedCall
  properties : List AlignedCall
  data : List AlignedCall
  deriving DecidableEq, Repr

/-- `THelpCmd::Usage`; `commands` holds the entries of
`Handler.GetCommands()`, each key with the command its pointer refers to. -/
def THelpCmd.Usage (MIN_FIELD_LENGTH : Nat) (UsagePrintData : Bool)
    (commands : List (String × ICmd)) (w : HelpWorld) : HelpSections :=
  let termWidth := if w.ioctl = 0 then w.ws_col else 80
  let nameWidth := MaxFieldLength commands (fun p => p.1) MIN_FIELD_LENGTH
  let commandCalls := commands.map
    (fun i => (⟨i.2.GetName, i.2.GetDescription, nameWidth, termWidth⟩ : AlignedCall))
  let vlist := w.ListVolumeProperties.2
  let volumeProperties :=
    if w.ListVolumeProperties.1 ≠ 0 then []
    else
      let nameWidth := MaxFieldLength vlist (fun p => p.Name) MIN_FIELD_LENGTH
      vlist.map (fun p => (⟨p.Name, p.Description, nameWidth, termWidth⟩ : AlignedCall))
  let plist := w.Plist.2
  let properties :=
    if w.Plist.1 ≠ 0 then []
    else
      let nameWidth := MaxFieldLength vlist (fun p => p.Name) MIN_FIELD_LENGTH
      plist.map (fun p => (⟨p.Name, p.Description, nameWidth, termWidth⟩ : AlignedCall))
  let dlist := w.Dlist.2
  let data :=
    if !UsagePrintData then []
    else if w.Dlist.1 ≠ 0 then []
    else
      let nameWidth := MaxFieldLength dlist (fun d => d.Name) MIN_FIELD_LENGTH
      dlist.map (fun d => (⟨d.Name, d.Description, nameWidth, termWidth⟩ : AlignedCall))
  { commands := commandCalls, volumeProperties := volumeProperties, properties := properties,
    data := data }

/-! ## Concrete inputs for the later evaluations -/

def EAGAIN : Int := 11

/-- The started task of container `a:b`, whose leaf cgroups are
`/porto/a:b` in the freezer hierarchy and `/porto%a:b` in the others. -/
def colonTask : TTask :=
  { startedTask with LeafCgroups := [⟨"/porto/a:b"⟩, ⟨"/porto%a:b"⟩] }

/-- A launch in which the stub's `clone` fails with `EAGAIN`: the stub
writes -1 on the pipe, the daemon reads it as pid, and the second read finds
the pipe closed. -/
def cloneFailWorld : StartWorld :=
  { statusWorld 0 0 with clone := ⟨-1, EAGAIN⟩, readPid := ⟨4, 0, -1⟩ }

/-- The payload process whose word expansion returns the code `r`. -/
def refusingChild (r : Int) : ChildWorld :=
  { quietChild with wordexp := fun _ _ _ => (r, []) }

/-- A property whose name has `n` characters. -/
def wideProperty (n : Nat) : TPortoProperty :=
  ⟨String.mk (List.replicate n 'x'), "a property"⟩

/-- A daemon that lists no volume property, the one property
`wideProperty n` and no data, with the standard output not on a terminal. -/
def oneProperty (n : Nat) : HelpWorld :=
  { ioctl := -1, ws_col := 0, ListVolumeProperties := (0, []),
    Plist := (0, [wideProperty n]), Dlist := (0, []) }

/-! ## Lemmas on the payload process -/

section
variable {α β : Type} {E : ChildEnd → ChildState → Prop}

theorem Ends_pure (a : α) : (Pure.pure a : ChildM α).Ends E := by
  intro s e s1 h
  cases h

theorem Ends_bind {m : ChildM α} {f : α → ChildM β}
    (hm : m.Ends E) (hf : ∀ a, (f a).Ends E) : (m >>= f).Ends E := by
  intro s e s1 h
  change (match m s with
    | (Except.ok a, s2) => f a s2
    | (Except.error e, s2) => (Except.error e, s2)) = _ at h
  rcases hms : m s with ⟨r, s2⟩
  rw [hms] at h
  cases r with
  | ok a => exact hf a s2 e s1 h
  | error e2 =>
    simp only [Prod.mk.injEq, Except.error.injEq] at h
    obtain ⟨rfl, rfl⟩ := h
    exact hm s e2 s2 hms

theorem Ends_ite {c : Prop} [Decidable c] {a b : ChildM α}
    (ha : a.Ends E) (hb : b.Ends E) : (if c then a else b).Ends E := by
  split
  · exact ha
  · exact hb

theorem Ends_getErrno : ChildM.getErrno.Ends E := by
  intro s e s1 h; cases h

theorem Ends_getWfd : ChildM.getWfd.Ends E := by
  intro s e s1 h; cases h

theorem Ends_setWfd (fd : Int) : (ChildM.setWfd fd).Ends E := by
  intro s e s1 h; cases h

theorem Ends_call (c : Call) : (ChildM.call c).Ends E := by
  intro s e s1 h; cases h

theorem Ends_sys (w : ChildWorld) (st : Step) (c : Call) : (ChildM.sys w st c).Ends E := by
  intro s e s1 h
  unfold ChildM.sys at h
  split at h <;> cases h

theorem Ends_sysClose (fd : Int) : (sysClose fd).Ends E := by
  intro s e s1 h; cases h

theorem Ends_sysOpen (w : ChildWorld) (st : Step) (p : String) (f m : Nat) :
    (sysOpen w st p f m).Ends E := by
  intro s e s1 h
  unfold Porto.sysOpen at h
  split at h <;> cases h

theorem Ends_mountOp (w : ChildWorld) (st : Step) (c : Call) : (mountOp w st c).Ends E := by
  intro s e s1 h
  unfold Porto.mountOp at h
  split at h <;> cases h

theorem Ends_cgAttach (w : ChildWorld) (i : Nat) (cg : TCgroup) : (cgAttach w i cg).Ends E := by
  intro s e s1 h; cases h

theorem Ends_sysClearenv : sysClearenv.Ends E := by
  intro s e s1 h; cases h

theorem Ends_sysWordexp (w : ChildWorld) (c : String) (f : Nat) : (sysWordexp w c f).Ends E := by
  intro s e s1 h; cases h

theorem Ends_Syslog (msg : String) : (Syslog msg).Ends E := by
  intro s e s1 h; cases h

theorem Ends_CloseAllFds (w : ChildWorld) (fd : Int) : (CloseAllFds w fd).Ends E := by
  intro s e s1 h; cases h

end

theorem Ends_ReportResultAndExit (w : ChildWorld) (fd v : Int) :
    (ReportResultAndExit w fd v).Ends (reportIsLastCall w) := by
  intro s e s1 h
  unfold ReportResultAndExit at h
  simp only [Prod.mk.injEq, Except.error.injEq] at h
  obtain ⟨rfl, rfl⟩ := h
  intro fd1 v1 h1
  cases h1
  simp [ChildWorld.writeOutcome]

theorem Ends_leave_exited (w : ChildWorld) (code : Int) :
    (ChildM.leave (ChildEnd.exited code) : ChildM Unit).Ends (reportIsLastCall w) := by
  intro s e s1 h
  unfold ChildM.leave at h
  simp only [Prod.mk.injEq, Except.error.injEq] at h
  obtain ⟨rfl, rfl⟩ := h
  intro fd1 v1 h1
  cases h1

theorem Ends_sysExecvpe (w : ChildWorld) (file : Option String) (argv envp : List String) :
    (sysExecvpe w file argv envp).Ends (reportIsLastCall w) := by
  intro s e s1 h
  unfold sysExecvpe at h
  split at h
  · simp only [Prod.mk.injEq, Except.error.injEq] at h
    obtain ⟨rfl, rfl⟩ := h
    intro fd1 v1 h1
    cases h1
  · cases h

theorem Ends_attachLeafCgroups (w : ChildWorld) (cgs : List TCgroup) :
    ∀ i, (attachLeafCgroups w i cgs).Ends (reportIsLastCall w) := by
  induction cgs with
  | nil => intro i; exact Ends_pure ()
  | cons cg rest ih =>
    intro i
    unfold attachLeafCgroups
    refine Ends_bind (Ends_cgAttach w i cg) (fun error => ?_)
    refine Ends_bind ?_ (fun _ => ih (i + 1))
    refine Ends_ite ?_ (Ends_pure _)
    refine Ends_bind (Ends_Syslog _) (fun _ => ?_)
    refine Ends_bind Ends_getWfd (fun _ => ?_)
    exact Ends_ReportResultAndExit w _ _

theorem Ends_ChildCallback (t : TTask) (w : ChildWorld) :
    (t.ChildCallback w).Ends (reportIsLastCall w) := by
  unfold TTask.ChildCallback
  repeat' with_reducible first
    | exact Ends_attachLeafCgroups w _ _
    | exact Ends_ReportResultAndExit w _ _
    | exact Ends_leave_exited w _
    | exact Ends_sysExecvpe w _ _ _
    | exact Ends_pure _
    | exact Ends_getErrno
    | exact Ends_getWfd
    | exact Ends_setWfd _
    | exact Ends_call _
    | exact Ends_sys w _ _
    | exact Ends_sysClose _
    | exact Ends_sysOpen w _ _ _ _
    | exact Ends_mountOp w _ _
    | exact Ends_sysClearenv
    | exact Ends_sysWordexp w _ _
    | exact Ends_Syslog _
    | exact Ends_CloseAllFds w _
    | apply Ends_bind
    | apply Ends_ite
    | intro _

/-! ### The word expansion only sees the cleared environment -/

section
variable (w : ChildWorld)

theorem blind_sys : ChildM.sys w.blindWordexp = ChildM.sys w := rfl
theorem blind_sysOpen : sysOpen w.blindWordexp = sysOpen w := rfl
theorem blind_mountOp : mountOp w.blindWordexp = mountOp w := rfl
theorem blind_cgAttach : cgAttach w.blindWordexp = cgAttach w := rfl
theorem blind_CloseAllFds : CloseAllFds w.blindWordexp = CloseAllFds w := rfl
theorem blind_Report : ReportResultAndExit w.blindWordexp = ReportResultAndExit w := rfl
theorem blind_sysExecvpe : sysExecvpe w.blindWordexp = sysExecvpe w := rfl
theorem blind_strerror : w.blindWordexp.strerror = w.strerror := rfl

theorem blind_attachLeafCgroups (cgs : List TCgroup) :
    ∀ i, attachLeafCgroups w.blindWordexp i cgs = attachLeafCgroups w i cgs := by
  induction cgs with
  | nil => intro i; rfl
  | cons cg rest ih =>
    intro i
    unfold attachLeafCgroups
    simp only [blind_cgAttach, blind_Report, ih]

theorem blind_clearenv_wordexp {β : Type} (command : String) (flags : Nat)
    (k : Int × List String → ChildM β) :
    (sysClearenv >>= fun _ => sysWordexp w.blindWordexp command flags >>= k) =
      (sysClearenv >>= fun _ => sysWordexp w command flags >>= k) := rfl

theorem ChildCallback_blindWordexp (t : TTask) :
    t.ChildCallback w.blindWordexp = t.ChildCallback w := by
  unfold TTask.ChildCallback
  simp only [blind_sys, blind_sysOpen, blind_mountOp, blind_CloseAllFds, blind_Report,
    blind_sysExecvpe, blind_strerror, blind_attachLeafCgroups, blind_clearenv_wordexp]

end

theorem runChild_blindWordexp (t : TTask) (w : ChildWorld) :
    t.runChild w.blindWordexp = t.runChild w := by
  unfold TTask.runChild
  rw [ChildCallback_blindWordexp]
  rfl

/-! ### What a failing system call puts on the status pipe -/

set_option maxHeartbeats 1000000 in
theorem report_of_failing_step (st : Step) (e : Int) :
    (rootedTask.forked (statusWorld 0 0)).childEnd (onlyFails st e) =
      some (ChildEnd.reported 6 (announcedReport st e)) := by
  cases st <;> rfl

/-! ## Lemmas on `TTask::Start` -/

theorem Start_kind_cases (t : TTask) (w : StartWorld) :
    (t.Start w).kind = some EError.Unknown ∨ (t.Start w).kind = some EError.Success ∨
      (t.Start w).kind = none := by
  generalize hr : t.Start w = r
  unfold TTask.Start at hr
  simp only at hr
  split_ifs at hr <;> subst hr <;> simp [StartResult.kind, TError.Success, TError.mk2]

theorem Start_kind_of_status (t : TTask) (w : StartWorld)
    (hpipe : w.pipe2.ret = 0) (hfork : 0 < w.fork.ret) (hpid : 0 < w.readPid.n) :
    (w.readResult.n ≠ 0 → (t.Start w).kind = some EError.Unknown) ∧
    (w.readResult.n = 0 → (t.Start w).kind = some EError.Success ∧
      ∃ t1, t.Start w = StartResult.parent TError.Success t1 ∧ t1.IsRunning = true) := by
  have h1 : ¬ w.fork.ret < 0 := by omega
  have h2 : ¬ w.fork.ret = 0 := by omega
  have h3 : ¬ w.readPid.n ≤ 0 := by omega
  constructor
  · intro hn
    simp only [TTask.Start, hpipe, h1, h2, h3, hn, ne_eq, not_true_eq_false, if_false]
    split_ifs <;> simp [StartResult.kind, TError.mk2]
  · intro hn
    simp [TTask.Start, hpipe, h1, h2, h3, hn, StartResult.kind, TError.Success, TTask.IsRunning]

theorem statusRead_of_report (w : ChildWorld) (tr : List Event) (fd v : Int)
    (h : tr.getLast? = some ⟨Call.write fd v, w.writeOutcome⟩) :
    (w.write = none → statusRead tr = ⟨4, 0, v⟩) ∧ (w.write ≠ none → statusRead tr = ⟨0, 0, 0⟩) := by
  unfold statusRead
  rw [h]
  constructor
  · intro hw
    simp [ChildWorld.writeOutcome, hw]
  · intro hw
    cases hwr : w.write with
    | none => exact absurd hwr hw
    | some e => simp [ChildWorld.writeOutcome, hwr]

theorem childEnd_reported_trace (t : TTask) (w : ChildWorld) (fd v : Int)
    (h : t.childEnd w = some (ChildEnd.reported fd v)) :
    (t.runChild w).2.trace.getLast? = some ⟨Call.write fd v, w.writeOutcome⟩ := by
  unfold TTask.childEnd at h
  rcases hr : t.runChild w with ⟨r, s1⟩
  rw [hr] at h
  cases r with
  | ok a => simp at h
  | error e =>
    simp only [Option.some.injEq] at h
    subst h
    exact Ends_ChildCallback t w (ChildState.init t w) _ s1 hr fd v rfl

/-! ## The claims -/

/-- C1: when the payload reports `+ENOENT` or `+EACCES` (a failed `execvpe`)
on the status pipe, `TTask::Start` returns an error of kind `Unknown`, not
`InvalidCommand`: it does so for every value read from the pipe, and in
particular in the launch of the command `__invalid_command_name__`. -/
theorem Start_exec_failure_kind :
    (∀ (t : TTask) (v : Int), (t.Start (statusWorld 4 v)).kind = some EError.Unknown) ∧
    ((aliceTask "__invalid_command_name__" "/" "").forked (statusWorld 0 0)).childEnd
        (execFailChild ENOENT) = some (ChildEnd.reported 6 ENOENT) ∧
    ((aliceTask "__invalid_command_name__" "/" "").launch (statusWorld 0 0)
        (execFailChild ENOENT)).kind = some EError.Unknown ∧
    ((aliceTask "__invalid_command_name__" "/" "").launch (statusWorld 0 0)
        (execFailChild EACCES)).kind = some EError.Unknown ∧
    ((aliceTask "__invalid_command_name__" "/" "").launch (statusWorld 0 0)
        (execFailChild ENOENT)).kind ≠ some EError.InvalidCommand := by
  refine ⟨?_, by decide, by decide, by decide, by decide⟩
  intro t v
  exact (Start_kind_of_status t (statusWorld 4 v) rfl (by simp [statusWorld])
    (by simp [statusWorld])).1 (by simp [statusWorld])

/-- C2: when the payload's `chdir` to the working directory fails and the
payload reports `-ENOENT` on the status pipe, `TTask::Start` returns an error
of kind `Unknown`; no run of `Start` returns `InvalidPath`. -/
theorem Start_chdir_failure_kind :
    ((aliceTask "sleep 1000" "/__invalid__dir__" "").forked (statusWorld 0 0)).childEnd
        badCwdChild = some (ChildEnd.reported 6 (-ENOENT)) ∧
    ((aliceTask "sleep 1000" "/__invalid__dir__" "").launch (statusWorld 0 0)
        badCwdChild).kind = some EError.Unknown ∧
    (∀ (t : TTask) (w : StartWorld), (t.Start w).kind ≠ some EError.InvalidPath) := by
  refine ⟨by decide, by decide, ?_⟩
  intro t w
  rcases Start_kind_cases t w with h | h | h <;> rw [h] <;> decide

/-- C3: for every pid `p` read from the stub, if the read of the status int
returns zero bytes then `TTask::Start` returns `Success` and afterwards the
task is running, `GetPid()` is `p` and the exit status is (0, 0). -/
theorem Start_success_on_empty_status (t : TTask) (w : StartWorld) (p : Int)
    (hpipe : w.pipe2.ret = 0) (hfork : 0 < w.fork.ret)
    (hpid : 0 < w.readPid.n) (hp : w.readPid.value = p) (hres : w.readResult.n = 0) :
    ∃ t1, t.Start w = StartResult.parent TError.Success t1 ∧ t1.IsRunning = true ∧
      t1.GetPid = p ∧ t1.GetExitStatus = ⟨0, 0⟩ := by
  have h1 : ¬ w.fork.ret < 0 := by omega
  have h2 : ¬ w.fork.ret = 0 := by omega
  have h3 : ¬ w.readPid.n ≤ 0 := by omega
  simp [TTask.Start, hpipe, h1, h2, h3, hpid, hres, hp, TTask.IsRunning, TTask.GetPid,
    TTask.GetExitStatus]

/-- Witness for C3: the launch of `sleep 1` in which the stub sends pid 101
and the pipe is closed by exec. -/
theorem Start_success_on_empty_status_witness :
    ∃ t1, (aliceTask "sleep 1" "" "").Start (statusWorld 0 0) =
        StartResult.parent TError.Success t1 ∧ t1.IsRunning = true ∧
      t1.GetPid = 101 ∧ t1.GetExitStatus = ⟨0, 0⟩ :=
  Start_success_on_empty_status (aliceTask "sleep 1" "" "") (statusWorld 0 0) 101
    rfl (by decide) (by decide) rfl rfl

/-- C4, as stated, fails: the payload's `prctl` fails, its write on the
status pipe fails too, and `TTask::Start` returns `Success` with the task
marked running. -/
theorem Start_success_when_report_is_lost :
    ((aliceTask "sleep 1000" "" "").forked (statusWorld 0 0)).childEnd muteChild =
        some (ChildEnd.reported 6 (-EPERM)) ∧
    muteChild.write = some EINTR ∧
    ((aliceTask "sleep 1000" "" "").launch (statusWorld 0 0) muteChild).kind =
        some EError.Success := by
  refine ⟨by decide, by decide, by decide⟩

/-- C4, amended: when the payload leaves through `ReportResultAndExit`, the
daemon's `Start` returns an error of kind `Unknown` if the payload's write on
the status pipe succeeded, and returns `Success` with the task marked running
if that write failed (the daemon then reads zero bytes); in general `Start`
returns `Unknown` exactly when its read of the status int does not return
zero bytes. -/
theorem launch_kind_of_report (t : TTask) (sw : StartWorld) (cw : ChildWorld) (fd v : Int)
    (hpipe : sw.pipe2.ret = 0) (hfork : 0 < sw.fork.ret) (hpid : 0 < sw.readPid.n)
    (hend : (t.forked sw).childEnd cw = some (ChildEnd.reported fd v)) :
    (cw.write = none → (t.launch sw cw).kind = some EError.Unknown) ∧
    (cw.write ≠ none → (t.launch sw cw).kind = some EError.Success ∧
      ∃ t1, t.launch sw cw = StartResult.parent TError.Success t1 ∧ t1.IsRunning = true) ∧
    (sw.readResult.n ≠ 0 → (t.Start sw).kind = some EError.Unknown) ∧
    (sw.readResult.n = 0 → (t.Start sw).kind = some EError.Success) := by
  have htr := childEnd_reported_trace (t.forked sw) cw fd v hend
  have hsr := statusRead_of_report cw _ fd v htr
  have hst := Start_kind_of_status t sw hpipe hfork hpid
  refine ⟨?_, ?_, hst.1, fun h => (hst.2 h).1⟩
  · intro hw
    have hk := Start_kind_of_status t
      { sw with readResult := statusRead ((t.forked sw).runChild cw).2.trace } hpipe hfork hpid
    unfold TTask.launch
    apply hk.1
    rw [hsr.1 hw]
    simp
  · intro hw
    have hk := Start_kind_of_status t
      { sw with readResult := statusRead ((t.forked sw).runChild cw).2.trace } hpipe hfork hpid
    unfold TTask.launch
    apply hk.2
    rw [hsr.2 hw]

/-- Witness for C4, amended: the launch whose payload fails in `prctl` and
cannot write on the status pipe returns `Success` with the task running. -/
theorem launch_kind_of_report_witness :
    ((aliceTask "sleep 1000" "" "").launch (statusWorld 0 0) muteChild).kind =
        some EError.Success ∧
    ∃ t1, (aliceTask "sleep 1000" "" "").launch (statusWorld 0 0) muteChild =
        StartResult.parent TError.Success t1 ∧ t1.IsRunning = true :=
  (launch_kind_of_report (aliceTask "sleep 1000" "" "") (statusWorld 0 0) muteChild 6 (-EPERM)
    rfl (by decide) (by decide) (by decide)).2.1 (by decide)

/-! ## Lemmas on the string helpers -/

theorem head?_of_initial {l1 l2 : List Char} {c : Char} (hp : l1 <+: l2)
    (h : l1.head? = some c) : l2.head? = some c := by
  obtain ⟨t, rfl⟩ := hp
  cases l1 with
  | nil => simp at h
  | cons a r => simpa using h

theorem trimChars_initial (l : List Char) : trimChars l <+: l.dropWhile isTrimChar := by
  unfold trimChars
  rw [← List.reverse_suffix, List.reverse_reverse]
  exact List.dropWhile_suffix _

theorem trimChars_head (l : List Char) (c : Char) (h : (trimChars l).head? = some c) :
    isTrimChar c = false := by
  have h1 := head?_of_initial (trimChars_initial l) h
  have h2 := List.head?_dropWhile_not isTrimChar l
  rw [h1] at h2
  exact h2

theorem trimChars_getLast (l : List Char) (c : Char) (h : (trimChars l).getLast? = some c) :
    isTrimChar c = false := by
  unfold trimChars at h
  rw [List.getLast?_reverse] at h
  have h2 := List.head?_dropWhile_not isTrimChar (l.dropWhile isTrimChar).reverse
  rw [h] at h2
  exact h2

/-- C5: a failing cgroup attach makes the payload write the negated error
kind of the returned `TError` on the status pipe, not the negated errno of
the failed call: with an attach error of kind `Unknown` the payload writes
-1 whatever errno the call left, so -1 and not -2 for `ENOENT`.  At every
other tested call site a failure with errno `e` writes `-e`, and a failing
`execvpe` writes `e`. -/
theorem ChildCallback_attach_failure_report :
    (∀ e : Int, (rootedTask.forked (statusWorld 0 0)).childEnd (attachFailChild e) =
        some (ChildEnd.reported 6 (-1))) ∧
    ((attachFailChild ENOENT).attach 0).isError = true ∧
    ((attachFailChild ENOENT).attach 0).Errno = ENOENT ∧
    ((attachFailChild ENOENT).attach 0).GetError = 1 ∧
    (-1 : Int) ≠ -ENOENT ∧
    (∀ (st : Step) (e : Int), (rootedTask.forked (statusWorld 0 0)).childEnd (onlyFails st e) =
        some (ChildEnd.reported 6 (announcedReport st e))) := by
  refine ⟨fun e => rfl, by decide, by decide, by decide, by decide, report_of_failing_step⟩

/-- C6: the stub calls `setsid` and then `clone` with the flags
`SIGCHLD | CLONE_NEWNS | CLONE_NEWPID | CLONE_NEWUTS`; `CLONE_NEWIPC` is not
among them, so the flag word differs from the one the claim gives. -/
theorem stub_clone_flags_lack_newipc :
    (aliceTask "sleep 1000" "" "").Start stubWorld =
      StartResult.stubExit
        [⟨Call.setsid, Outcome.ok 0⟩, ⟨Call.clone stubCloneFlags, Outcome.ok 101⟩,
         ⟨Call.write 6 101, Outcome.ok 0⟩] EXIT_SUCCESS ∧
    stubCloneFlags = SIGCHLD ||| CLONE_NEWPID ||| CLONE_NEWNS ||| CLONE_NEWUTS ∧
    stubCloneFlags ≠ SIGCHLD ||| CLONE_NEWPID ||| CLONE_NEWNS ||| CLONE_NEWUTS ||| CLONE_NEWIPC ∧
    stubCloneFlags &&& CLONE_NEWIPC = 0 := by
  refine ⟨by decide, by decide, by decide, by decide⟩

/-- C7: for the command `sleep 1000` in `/place/porto/a` with the `env`
property `a=b;c=d;`, `TTaskEnv::Prepare` builds the list PATH, a=b, c=d,
HOME, USER: the user entries come before HOME and USER, and the entries
`container=lxc`, `PORTO_NAME`, `PORTO_HOST` and `PORTO_USER` are not there;
with an empty `env` property the list has the three entries PATH, HOME,
USER. -/
theorem Prepare_env_order :
    ((aliceEnv "sleep 1000" "/place/porto/a" "a=b;c=d;").Prepare accounts).1 = TError.Success ∧
    ((aliceEnv "sleep 1000" "/place/porto/a" "a=b;c=d;").Prepare accounts).2.GetEnvp =
      ["PATH=/usr/local/sbin:/usr/local/bin:/usr/sbin:/usr/bin:/sbin:/bin:/place/porto/a",
       "a=b", "c=d", "HOME=/place/porto/a", "USER=porto-alice"] ∧
    "container=lxc" ∉ ((aliceEnv "sleep 1000" "/place/porto/a" "a=b;c=d;").Prepare accounts).2.GetEnvp ∧
    ((aliceEnv "sleep 1000" "/place/porto/a" "").Prepare accounts).2.GetEnvp =
      ["PATH=/usr/local/sbin:/usr/local/bin:/usr/sbin:/usr/bin:/sbin:/bin:/place/porto/a",
       "HOME=/place/porto/a", "USER=porto-alice"] := by
  refine ⟨by decide, by decide, by decide, by decide⟩

/-- C8 fails on the code: `TTaskEnv::Prepare` hands the `env` value to the
plain `SplitString` and appends its tokens as they are; it calls neither
`SplitEscapedString` nor `StringTrim`.  So `a=e\;b;c=d;` gives the entries
`a=e\`, `b` and `c=d`, where the `env` property as the spec and the test
describe it has `a=e;b` and `c=d`, and `a=b;;c=d;` gives an empty entry
between `a=b` and `c=d`.  Whatever the splitter does, the list `Prepare`
builds starts with the old entries, PATH and the splitter's tokens,
unchanged. -/
theorem Prepare_cuts_escaped_semicolon :
    ((aliceEnv "sleep 1000" "/place/porto/a" "a=e\x5c;b;c=d;").Prepare accounts).2.GetEnvp =
      ["PATH=/usr/local/sbin:/usr/local/bin:/usr/sbin:/usr/bin:/sbin:/bin:/place/porto/a",
       "a=e\x5c", "b", "c=d", "HOME=/place/porto/a", "USER=porto-alice"] ∧
    envEntries "a=e\x5c;b;c=d;" = ["a=e;b", "c=d"] ∧
    ((aliceEnv "sleep 1000" "/place/porto/a" "a=b;;c=d;").Prepare accounts).2.GetEnvp =
      ["PATH=/usr/local/sbin:/usr/local/bin:/usr/sbin:/usr/bin:/sbin:/bin:/place/porto/a",
       "a=b", "", "c=d", "HOME=/place/porto/a", "USER=porto-alice"] ∧
    envEntries "a=b;;c=d;" = ["a=b", "c=d"] ∧
    (∀ (e : TTaskEnv) (w : PrepareWorld), e.Command.length = 0 ∨
      (e.Env ++ ("PATH=/usr/local/sbin:/usr/local/bin:/usr/sbin:/usr/bin:/sbin:/bin:" ++
          (if e.Cwd.length ≠ 0 then e.Cwd else "/home/" ++ e.User)) ::
        (w.SplitString e.Envir ';').2) <+: (e.Prepare w).2.Env) := by
  refine ⟨by decide, by decide, by decide, by decide, ?_⟩
  intro e w
  by_cases hc : e.Command.length = 0
  · exact Or.inl hc
  · right
    by_cases hs : (w.SplitString e.Envir ';').1.isError = true
    · simp [TTaskEnv.Prepare, hc, hs]
    · cases hu : w.getpwnam e.User with
      | none => simp [TTaskEnv.Prepare, hc, hs, hu]
      | some uid =>
        cases hg : w.getgrnam e.Group <;> simp [TTaskEnv.Prepare, hc, hs, hu, hg]

/-- C9: the command `sleep $N` of a container whose `env` property is `N=1`
is expanded after `clearenv()`, against the emptied process environment:
`N` is in the list given to `execvpe` but not visible to the expansion, which
stops with `WRDE_BADVAL`; the payload reports `-EINVAL` and `TTask::Start`
returns an error.  Against the container's list the expansion would have
given `sleep 1`.  For every task and every payload world, the run is the
one obtained when the expansion is only ever given the empty environment. -/
theorem ChildCallback_expands_after_clearenv :
    "N=1" ∈ (aliceTask "sleep $N" "" "N=1").Env.GetEnvp ∧
    ((aliceTask "sleep $N" "" "N=1").forked (statusWorld 0 0)).childEnd quietChild =
        some (ChildEnd.reported 6 (-EINVAL)) ∧
    ((aliceTask "sleep $N" "" "N=1").launch (statusWorld 0 0) quietChild).kind =
        some EError.Unknown ∧
    wordexpPlain [] "sleep $N" (WRDE_NOCMD ||| WRDE_UNDEF) = (WRDE_BADVAL, []) ∧
    wordexpPlain (aliceTask "sleep $N" "" "N=1").Env.GetEnvp "sleep $N"
        (WRDE_NOCMD ||| WRDE_UNDEF) = (0, ["sleep", "1"]) ∧
    (∀ (t : TTask) (w : ChildWorld), t.runChild w.blindWordexp = t.runChild w) := by
  refine ⟨by decide, by decide, by decide, by decide, by decide, runChild_blindWordexp⟩

/-- C10, as stated, fails: with user and group `9999`, which name no
account, `TTaskEnv::Prepare` returns `InvalidValue` and leaves `Uid`
unset. -/
theorem Prepare_rejects_numeric_user :
    accounts.getpwnam "9999" = none ∧
    (({ aliceEnv "sleep 1000" "" "" with User := "9999", Group := "9999" } : TTaskEnv).Prepare
        accounts).1 = ⟨EError.InvalidValue, EINVAL, "getpwnam(9999)"⟩ ∧
    (({ aliceEnv "sleep 1000" "" "" with User := "9999", Group := "9999" } : TTaskEnv).Prepare
        accounts).2.Uid ≠ 9999 := by
  refine ⟨by decide, by decide, by decide⟩

/-- C10, amended: `TTaskEnv::Prepare` resolves user and group by account
name only.  For a non-empty command whose `env` property splits: a user that
names no account gives `InvalidValue` with `EINVAL`, so does a group that
names no group, and when both are found `Prepare` succeeds with `Uid` and
`Gid` set to the ids found. -/
theorem Prepare_resolves_by_name (e : TTaskEnv) (w : PrepareWorld) (hc : e.Command.length ≠ 0)
    (hs : (w.SplitString e.Envir ';').1.isError = false) :
    (w.getpwnam e.User = none →
      (e.Prepare w).1 = ⟨EError.InvalidValue, EINVAL, "getpwnam(" ++ e.User ++ ")"⟩) ∧
    (∀ uid, w.getpwnam e.User = some uid → w.getgrnam e.Group = none →
      (e.Prepare w).1 = ⟨EError.InvalidValue, EINVAL, "getgrnam(" ++ e.Group ++ ")"⟩) ∧
    (∀ uid gid, w.getpwnam e.User = some uid → w.getgrnam e.Group = some gid →
      (e.Prepare w).1 = TError.Success ∧ (e.Prepare w).2.Uid = uid ∧
        (e.Prepare w).2.Gid = gid) := by
  refine ⟨?_, ?_, ?_⟩
  · intro hu
    simp [TTaskEnv.Prepare, hc, hs, hu]
  · intro uid hu hg
    simp [TTaskEnv.Prepare, hc, hs, hu, hg]
  · intro uid gid hu hg
    simp [TTaskEnv.Prepare, hc, hs, hu, hg]

/-- Witness for C10, amended: the account `porto-alice` is resolved to uid
and gid 1001. -/
theorem Prepare_resolves_by_name_witness :
    ((aliceEnv "sleep 1000" "" "").Prepare accounts).1 = TError.Success ∧
    ((aliceEnv "sleep 1000" "" "").Prepare accounts).2.Uid = 1001 ∧
    ((aliceEnv "sleep 1000" "" "").Prepare accounts).2.Gid = 1001 :=
  (Prepare_resolves_by_name (aliceEnv "sleep 1000" "" "") accounts (by decide) (by decide)).2.2
    1001 1001 (by decide) (by decide)

/-! ## Lemmas on recovery -/

theorem validateLines_cons (cgs : List TCgroup) (w : ProcWorld) (l : String)
    (rest : List String) :
    validateLines cgs w (l :: rest) =
      if (w.SplitString l ':').1.isError then
        Run.done (w.SplitString l ':').1
      else
        match (w.SplitString l ':').2 with
        | [] => Run.outOfRange 1 0
        | [_] => Run.outOfRange 1 1
        | [_, _] => Run.outOfRange 2 2
        | _ :: subsys :: path :: _ =>
          if !(cgs.any (fun cg => cg.Relpath == path)) then
            Run.done (TError.mk2 EError.Unknown
              ("Task belongs to invalid subsystem " ++ subsys ++ ":" ++ path))
          else
            validateLines cgs w rest := by
  rw [validateLines]

theorem validateLines_append (cgs : List TCgroup) (w : ProcWorld) (pre rest : List String)
    (h : validateLines cgs w pre = Run.done TError.Success) :
    validateLines cgs w (pre ++ rest) = validateLines cgs w rest := by
  induction pre with
  | nil => rfl
  | cons l pre ih =>
    rw [validateLines_cons] at h
    rw [List.cons_append, validateLines_cons]
    split_ifs at h ⊢ with h1
    · simp only [Run.done.injEq] at h
      rw [h] at h1
      exact absurd h1 (by decide)
    · split at h
      · cases h
      · cases h
      · cases h
      · split_ifs at h ⊢ with h2
        · simp only [Run.done.injEq] at h
          cases h
        · exact ih h

theorem Start_error_keeps_state (t : TTask) (w : StartWorld) :
    (t.Start w).kind = some EError.Success ∨ (t.Start w).task = none ∨
      (t.Start w).task.map TTask.IsRunning = some t.IsRunning := by
  generalize hr : t.Start w = r
  unfold TTask.Start at hr
  simp only at hr
  split_ifs at hr <;> subst hr <;>
    simp [StartResult.kind, StartResult.task, TTask.IsRunning, TError.Success, TError.mk2]

/-! ## The claims on `Prepare`, `Start`, `Kill`, recovery and rotation -/

/-- C11, as stated, fails: with a user that names no account,
`TTaskEnv::Prepare` returns an error and leaves the PATH, HOME and USER
entries in the `Env` list, which was empty before the call; with a known user
and a group that names no group it returns an error and leaves `Uid`, which
was 0, at the user's uid 1001. -/
theorem Prepare_error_keeps_entries :
    (({ aliceEnv "sleep 1000" "" "" with User := "9999" } : TTaskEnv).Prepare accounts).1.isError =
      true ∧
    ({ aliceEnv "sleep 1000" "" "" with User := "9999" } : TTaskEnv).Env = [] ∧
    (({ aliceEnv "sleep 1000" "" "" with User := "9999" } : TTaskEnv).Prepare accounts).2.Env =
      ["PATH=/usr/local/sbin:/usr/local/bin:/usr/sbin:/usr/bin:/sbin:/bin:/home/9999",
       "HOME=/home/9999", "USER=9999"] ∧
    (({ aliceEnv "sleep 1000" "" "" with Group := "nogroup" } : TTaskEnv).Prepare accounts).1.isError =
      true ∧
    ({ aliceEnv "sleep 1000" "" "" with Group := "nogroup" } : TTaskEnv).Uid = 0 ∧
    (({ aliceEnv "sleep 1000" "" "" with Group := "nogroup" } : TTaskEnv).Prepare accounts).2.Uid =
      1001 := by
  refine ⟨by decide, by decide, by decide, by decide, by decide, by decide⟩

/-- C11, amended: when `TTaskEnv::Prepare` returns an error, `Gid` is as
before the call and nothing is rolled back.  If the split of the `env` value
failed, `Uid` is as before and `Env` is the old list followed by the PATH
entry and the tokens the splitter appended.  Otherwise `Env` is the old list
followed by PATH, the user entries, HOME and USER; `Uid` is as before when the
user is unknown, and when the user is known the group is unknown and `Uid` is
already the user's uid. -/
theorem Prepare_error_effects (e : TTaskEnv) (w : PrepareWorld)
    (herr : (e.Prepare w).1.isError = true) :
    (e.Prepare w).2.Gid = e.Gid ∧
    ((w.SplitString e.Envir ';').1.isError = true →
      (e.Prepare w).2.Uid = e.Uid ∧
      (e.Prepare w).2.Env = e.Env ++
        ("PATH=/usr/local/sbin:/usr/local/bin:/usr/sbin:/usr/bin:/sbin:/bin:" ++
          (if e.Cwd.length ≠ 0 then e.Cwd else "/home/" ++ e.User)) ::
        (w.SplitString e.Envir ';').2) ∧
    ((w.SplitString e.Envir ';').1.isError = false →
      (e.Prepare w).2.Env = e.Env ++
        ("PATH=/usr/local/sbin:/usr/local/bin:/usr/sbin:/usr/bin:/sbin:/bin:" ++
          (if e.Cwd.length ≠ 0 then e.Cwd else "/home/" ++ e.User)) ::
        ((w.SplitString e.Envir ';').2 ++
          ["HOME=" ++ (if e.Cwd.length ≠ 0 then e.Cwd else "/home/" ++ e.User),
           "USER=" ++ e.User]) ∧
      (w.getpwnam e.User = none → (e.Prepare w).2.Uid = e.Uid) ∧
      (∀ uid, w.getpwnam e.User = some uid →
        w.getgrnam e.Group = none ∧ (e.Prepare w).2.Uid = uid)) := by
  by_cases hc : e.Command.length = 0
  · simp [TTaskEnv.Prepare, hc, TError.Success, TError.isError] at herr
  · by_cases hs : (w.SplitString e.Envir ';').1.isError = true
    · refine ⟨?_, fun _ => ⟨?_, ?_⟩, fun h => ?_⟩
      · simp [TTaskEnv.Prepare, hc, hs]
      · simp [TTaskEnv.Prepare, hc, hs]
      · simp [TTaskEnv.Prepare, hc, hs]
      · rw [hs] at h; cases h
    · have hs2 : (w.SplitString e.Envir ';').1.isError = false := by simpa using hs
      cases hu : w.getpwnam e.User with
      | none =>
        refine ⟨?_, fun h => ?_, fun _ => ⟨?_, fun _ => ?_, fun uid h => ?_⟩⟩
        · simp [TTaskEnv.Prepare, hc, hs, hu]
        · rw [hs2] at h; cases h
        · simp [TTaskEnv.Prepare, hc, hs, hu]
        · simp [TTaskEnv.Prepare, hc, hs, hu]
        · cases h
      | some uid =>
        cases hg : w.getgrnam e.Group with
        | none =>
          refine ⟨?_, fun h => ?_, fun _ => ⟨?_, fun h => ?_, fun uid1 h => ⟨rfl, ?_⟩⟩⟩
          · simp [TTaskEnv.Prepare, hc, hs, hu, hg]
          · rw [hs2] at h; cases h
          · simp [TTaskEnv.Prepare, hc, hs, hu, hg]
          · cases h
          · cases h
            simp [TTaskEnv.Prepare, hc, hs, hu, hg]
        | some gid =>
          simp only [TTaskEnv.Prepare, hc, hs2, hu, hg, if_false, Bool.false_eq_true] at herr
          exact absurd herr (by decide)

/-- Witness for C11, amended: the known user `porto-alice` with the unknown
group `nogroup`. -/
theorem Prepare_error_effects_witness :
    (({ aliceEnv "sleep 1000" "" "" with Group := "nogroup" } : TTaskEnv).Prepare accounts).2.Gid =
      0 ∧
    (accounts.getgrnam "nogroup" = none ∧
      (({ aliceEnv "sleep 1000" "" "" with Group := "nogroup" } : TTaskEnv).Prepare
        accounts).2.Uid = 1001) :=
  ⟨(Prepare_error_effects ({ aliceEnv "sleep 1000" "" "" with Group := "nogroup" } : TTaskEnv)
      accounts (by decide)).1,
   ((Prepare_error_effects ({ aliceEnv "sleep 1000" "" "" with Group := "nogroup" } : TTaskEnv)
      accounts (by decide)).2.2 (by decide)).2.2 1001 (by decide)⟩

/-- C12: a task whose payload (pid 101) has exited is not running; when
`pipe2` fails in the next `TTask::Start`, `Start` returns an error and
`GetPid()` still returns 101, not 0.  On the error paths after the pid was
read, `Start` does reset the pid to 0, and whenever `Start` returns an error
in the daemon the task is running exactly if it was before. -/
theorem Start_error_keeps_stale_pid :
    (aliceTask "sleep 1" "" "").Start (statusWorld 0 0) =
      StartResult.parent TError.Success startedTask ∧
    deadTask.IsRunning = false ∧
    (deadTask.Start noPipeWorld).kind = some EError.Unknown ∧
    (deadTask.Start noPipeWorld).task.map TTask.IsRunning = some false ∧
    (deadTask.Start noPipeWorld).task.map TTask.GetPid = some 101 ∧
    (∀ (t : TTask) (v : Int), (t.Start (statusWorld 4 v)).task.map TTask.GetPid = some 0) ∧
    (∀ (t : TTask) (w : StartWorld),
      (t.Start w).kind = some EError.Success ∨ (t.Start w).task = none ∨
        (t.Start w).task.map TTask.IsRunning = some t.IsRunning) := by
  refine ⟨by decide, by decide, by decide, by decide, by decide, ?_, Start_error_keeps_state⟩
  intro t v
  simp [TTask.Start, statusWorld, StartResult.task, TTask.GetPid]

/-- C13: a task whose payload (pid 101) has exited is not running, yet
`TTask::Kill(9)` on it calls `kill(101, 9)`: `DeliverExitStatus` leaves the
pid in place and `Kill` only rejects a task whose pid is 0, such as one that
was never started. -/
theorem Kill_signals_dead_task :
    deadTask.IsRunning = false ∧
    deadTask.Kill 9 = KillResult.signalled 101 9 ∧
    (aliceTask "sleep 1" "" "").Kill 9 = KillResult.thrown "Tried to kill invalid process!" ∧
    (∀ (t : TTask) (status signal : Int),
      (t.DeliverExitStatus status).Kill signal = t.Kill signal) := by
  refine ⟨by decide, by decide, by decide, ?_⟩
  intro t status signal
  rfl

/-- C14: after `TTask::DeliverExitStatus(s)` the task is not running and its
exit status is error 0 with the wait status `s` unmodified. -/
theorem DeliverExitStatus_records_status (t : TTask) (s : Int) :
    (t.DeliverExitStatus s).IsRunning = false ∧
    (t.DeliverExitStatus s).GetExitStatus = ⟨0, s⟩ := by
  constructor
  · simp [TTask.DeliverExitStatus, TTask.IsRunning]
  · rfl

/-- C15, as stated, fails: the cgroup file of pid 101 has the line
`4:memory:/`, whose cgroup is not a leaf cgroup of the task;
`ValidateCgroups` returns an error for it, and `TTask::Restore(101)` returns
`Success` with the task running. -/
theorem Restore_succeeds_on_cgroup_mismatch :
    ({ deadTask with Pid := 101 } : TTask).ValidateCgroups
        (procWith ["4:memory:/", "3:freezer:/porto/a"]) =
      Run.done (TError.mk2 EError.Unknown "Task belongs to invalid subsystem memory:/") ∧
    deadTask.Restore 101 (procWith ["4:memory:/", "3:freezer:/porto/a"]) =
      Run.done (TError.Success,
        { deadTask with Pid := 101, State := ETaskState.Started,
                        StdoutFile := "/stdout", StderrFile := "/stderr" }) := by
  refine ⟨by decide, by decide⟩

/-- C15, amended: a cgroup mismatch is an error of `ValidateCgroups` only.
If the lines before a line all pass and that line splits into at least three
tokens whose third is not the relative path of a leaf cgroup,
`ValidateCgroups` returns an error of kind `Unknown`; `TTask::Restore` logs
what `ValidateCgroups` returns and, whenever it returns, returns
`Success`. -/
theorem Restore_ignores_cgroup_mismatch (t : TTask) (pid : Int) (w : ProcWorld)
    (pre rest : List String) (line a subsys path : String) (more : List String)
    (hfile : w.AsLines ("/proc/" ++ toString pid ++ "/cgroup") = (TError.Success, pre ++ line :: rest))
    (hpre : validateLines t.LeafCgroups w pre = Run.done TError.Success)
    (hsplit : w.SplitString line ':' = (TError.Success, a :: subsys :: path :: more))
    (hbad : ∀ cg ∈ t.LeafCgroups, cg.Relpath ≠ path) :
    ({ t with Pid := pid } : TTask).ValidateCgroups w =
      Run.done (TError.mk2 EError.Unknown
        ("Task belongs to invalid subsystem " ++ subsys ++ ":" ++ path)) ∧
    ∃ t1, t.Restore pid w = Run.done (TError.Success, t1) ∧ t1.IsRunning = true ∧
      t1.GetPid = pid := by
  have hv : validateLines t.LeafCgroups w (pre ++ line :: rest) =
      Run.done (TError.mk2 EError.Unknown
        ("Task belongs to invalid subsystem " ++ subsys ++ ":" ++ path)) := by
    rw [validateLines_append _ _ _ _ hpre]
    unfold validateLines
    have hany : (t.LeafCgroups.any fun cg => cg.Relpath == path) = false := by
      rw [List.any_eq_false]
      intro cg hcg
      simpa using hbad cg hcg
    simp [hsplit, TError.Success, TError.isError, hany]
  constructor
  · simp [TTask.ValidateCgroups, hfile, TError.Success, TError.isError, hv]
  · have hS : TError.Success.isError = false := by decide
    unfold TTask.Restore
    simp only [TTask.ValidateCgroups, hfile, hS, Bool.false_eq_true, if_false, hv]
    exact ⟨_, rfl, by simp [TTask.IsRunning], rfl⟩

/-- Witness for C15, amended: the cgroup file of pid 101 with a valid
freezer line followed by the line `4:memory:/`. -/
theorem Restore_ignores_cgroup_mismatch_witness :
    ({ deadTask with Pid := 101 } : TTask).ValidateCgroups
        (procWith ["3:freezer:/porto/a", "4:memory:/"]) =
      Run.done (TError.mk2 EError.Unknown
        ("Task belongs to invalid subsystem " ++ "memory" ++ ":" ++ "/")) ∧
    ∃ t1, deadTask.Restore 101 (procWith ["3:freezer:/porto/a", "4:memory:/"]) =
        Run.done (TError.Success, t1) ∧ t1.IsRunning = true ∧ t1.GetPid = 101 :=
  Restore_ignores_cgroup_mismatch deadTask 101 (procWith ["3:freezer:/porto/a", "4:memory:/"])
    ["3:freezer:/porto/a"] [] "4:memory:/" "4" "memory" "/" []
    (by decide) (by decide) (by decide) (by decide)

/-! ## Stepping through `ChildCallback` -/

theorem bind_apply {α β : Type} (m : ChildM α) (f : α → ChildM β) (s : ChildState) :
    (m >>= f) s = match m s with
      | (Except.ok a, s1) => f a s1
      | (Except.error e, s1) => (Except.error e, s1) := rfl

theorem pure_apply {α : Type} (a : α) (s : ChildState) :
    (pure a : ChildM α) s = (Except.ok a, s) := rfl

theorem ite_apply {α : Type} (c : Prop) [Decidable c] (a b : ChildM α) (s : ChildState) :
    (if c then a else b) s = if c then a s else b s := by
  split <;> rfl

theorem lowestFree_not_neg (fds : List (Int × String)) : (lowestFree fds < 0) = False := by
  simp [lowestFree]

theorem attachLeafCgroups_ok (w : ChildWorld) (cgs : List TCgroup) :
    ∀ (i : Nat) (s s1 : ChildState) (a : Unit),
      attachLeafCgroups w i cgs s = (Except.ok a, s1) →
      s1 = { s with trace := s.trace ++ attachEvents w i cgs } := by
  induction cgs with
  | nil =>
    intro i s s1 a h
    simp only [attachLeafCgroups, pure_apply, Prod.mk.injEq] at h
    simp [attachEvents, ← h.2]
  | cons cg rest ih =>
    intro i s s1 a h
    unfold attachLeafCgroups at h
    simp only [bind_apply, pure_apply, ite_apply, cgAttach, Syslog, ChildM.getWfd,
      ReportResultAndExit] at h
    split_ifs at h with he
    · simp at h
    · have h2 := ih (i + 1) _ s1 a h
      rw [h2]
      simp [attachEvents]

theorem attachLeafCgroups_error (w : ChildWorld) (cgs : List TCgroup) :
    ∀ (i : Nat) (s s1 : ChildState) (e : ChildEnd),
      attachLeafCgroups w i cgs s = (Except.error e, s1) →
      ∃ fd v, e = ChildEnd.reported fd v := by
  induction cgs with
  | nil =>
    intro i s s1 e h
    simp [attachLeafCgroups, pure_apply] at h
  | cons cg rest ih =>
    intro i s s1 e h
    unfold attachLeafCgroups at h
    simp only [bind_apply, pure_apply, ite_apply, cgAttach, Syslog, ChildM.getWfd,
      ReportResultAndExit] at h
    split_ifs at h with he
    · simp only [Prod.mk.injEq, Except.error.injEq] at h
      exact ⟨_, _, h.1.symm⟩
    · exact ih (i + 1) _ s1 e h

set_option maxHeartbeats 4000000 in
theorem exec_run (t : TTask) (w : ChildWorld) (s0 s1 : ChildState)
    (file : Option String) (argv envp : List String)
    (h : t.ChildCallback w s0 = (Except.error (ChildEnd.execed file argv envp), s1)) :
    (w.wordexp [] t.Env.Command (WRDE_NOCMD ||| WRDE_UNDEF)).1 = 0 ∧
    file = (w.wordexp [] t.Env.Command (WRDE_NOCMD ||| WRDE_UNDEF)).2.head? ∧
    argv = (w.wordexp [] t.Env.Command (WRDE_NOCMD ||| WRDE_UNDEF)).2 ∧
    envp = t.Env.GetEnvp ∧
    s1.fds = launchFds t w s0.Wfd s0.fds ∧
    s1.trace = s0.trace ++ launchEvents t w s0.Wfd s0.fds := by
  unfold TTask.ChildCallback at h
  by_cases hR : t.Env.Root.length = 0 <;> by_cases hC : t.Env.Cwd.length = 0
  all_goals simp only [ne_eq, hR, hC, not_true_eq_false, not_false_eq_true, if_true, if_false,
    bind_apply, pure_apply, ite_apply, sysClose, ChildM.call, ChildM.sys, mountOp,
    sysOpen, ChildM.getErrno, ChildM.getWfd, ChildM.setWfd, Syslog, ReportResultAndExit,
    CloseAllFds, sysClearenv, sysWordexp, sysExecvpe, ChildM.leave] at h
  all_goals (rcases h_prctl : w.fail Step.prctl with _ | e <;>
    [simp only [h_prctl, lt_self_iff_false, Bool.false_eq_true, lowestFree_not_neg, if_false] at h; (simp only [h_prctl, Int.reduceNeg, Int.reduceLT, if_true, Prod.mk.injEq, Except.error.injEq, reduceCtorEq, false_and] at h)])
  all_goals (rcases h_setsid : w.fail Step.setsid with _ | e <;>
    [simp only [h_setsid, lt_self_iff_false, Bool.false_eq_true, lowestFree_not_neg, if_false] at h; (simp only [h_setsid, Int.reduceNeg, Int.reduceLT, if_true, Prod.mk.injEq, Except.error.injEq, reduceCtorEq, false_and] at h)])
  all_goals (rcases h_procRemount : w.fail Step.procRemount with _ | e <;>
    [simp only [h_procRemount, lt_self_iff_false, Bool.false_eq_true, lowestFree_not_neg, if_false] at h; (simp only [h_procRemount, Int.reduceNeg, Int.reduceLT, if_true, Prod.mk.injEq, Except.error.injEq, reduceCtorEq, false_and] at h)])
  all_goals generalize hA : attachLeafCgroups w 0 t.LeafCgroups _ = rA at h
  all_goals rcases rA with ⟨_ | _, sA⟩
  all_goals first
    | (obtain ⟨fd, v, hv⟩ := attachLeafCgroups_error w _ _ _ _ _ hA
       subst hv
       simp at h)
    | (have hsA := attachLeafCgroups_ok w _ _ _ _ _ hA
       subst hsA
       simp only [] at h)
  all_goals by_cases hW : s0.Wfd < 0
  all_goals first
    | (simp [hW] at h; done)
    | simp only [hW, if_false] at h
  all_goals (rcases h_open0 : w.fail Step.open0 with _ | e <;>
    [simp only [h_open0, lt_self_iff_false, Bool.false_eq_true, lowestFree_not_neg, if_false] at h; (simp only [h_open0, Int.reduceNeg, Int.reduceLT, if_true, Prod.mk.injEq, Except.error.injEq, reduceCtorEq, false_and] at h)])
  all_goals (rcases h_open1 : w.fail Step.open1 with _ | e <;>
    [simp only [h_open1, lt_self_iff_false, Bool.false_eq_true, lowestFree_not_neg, if_false] at h; (simp only [h_open1, Int.reduceNeg, Int.reduceLT, if_true, Prod.mk.injEq, Except.error.injEq, reduceCtorEq, false_and] at h)])
  all_goals (rcases h_fchown1 : w.fail Step.fchown1 with _ | e <;>
    [simp only [h_fchown1, lt_self_iff_false, Bool.false_eq_true, lowestFree_not_neg, if_false] at h; (simp only [h_fchown1, Int.reduceNeg, Int.reduceLT, if_true, Prod.mk.injEq, Except.error.injEq, reduceCtorEq, false_and] at h)])
  all_goals (rcases h_open2 : w.fail Step.open2 with _ | e <;>
    [simp only [h_open2, lt_self_iff_false, Bool.false_eq_true, lowestFree_not_neg, if_false] at h; (simp only [h_open2, Int.reduceNeg, Int.reduceLT, if_true, Prod.mk.injEq, Except.error.injEq, reduceCtorEq, false_and] at h)])
  all_goals (rcases h_fchown2 : w.fail Step.fchown2 with _ | e <;>
    [simp only [h_fchown2, lt_self_iff_false, Bool.false_eq_true, lowestFree_not_neg, if_false] at h; (simp only [h_fchown2, Int.reduceNeg, Int.reduceLT, if_true, Prod.mk.injEq, Except.error.injEq, reduceCtorEq, false_and] at h)])
  all_goals first
    | (rcases h_bindRoot : w.fail Step.bindRoot with _ | e <;>
        [simp only [h_bindRoot, lt_self_iff_false, Bool.false_eq_true, lowestFree_not_neg, if_false] at h; (simp only [h_bindRoot, Int.reduceNeg, Int.reduceLT, if_true, Prod.mk.injEq, Except.error.injEq, reduceCtorEq, false_and] at h)])
    | skip
  all_goals first
    | (rcases h_bindTmp : w.fail Step.bindTmp with _ | e <;>
        [simp only [h_bindTmp, lt_self_iff_false, Bool.false_eq_true, lowestFree_not_neg, if_false] at h; (simp only [h_bindTmp, Int.reduceNeg, Int.reduceLT, if_true, Prod.mk.injEq, Except.error.injEq, reduceCtorEq, false_and] at h)])
    | skip
  all_goals first
    | (rcases h_bindSys : w.fail Step.bindSys with _ | e <;>
        [simp only [h_bindSys, lt_self_iff_false, Bool.false_eq_true, lowestFree_not_neg, if_false] at h; (simp only [h_bindSys, Int.reduceNeg, Int.reduceLT, if_true, Prod.mk.injEq, Except.error.injEq, reduceCtorEq, false_and] at h)])
    | skip
  all_goals first
    | (rcases h_bindRun : w.fail Step.bindRun with _ | e <;>
        [simp only [h_bindRun, lt_self_iff_false, Bool.false_eq_true, lowestFree_not_neg, if_false] at h; (simp only [h_bindRun, Int.reduceNeg, Int.reduceLT, if_true, Prod.mk.injEq, Except.error.injEq, reduceCtorEq, false_and] at h)])
    | skip
  all_goals first
    | (rcases h_bindDev : w.fail Step.bindDev with _ | e <;>
        [simp only [h_bindDev, lt_self_iff_false, Bool.false_eq_true, lowestFree_not_neg, if_false] at h; (simp only [h_bindDev, Int.reduceNeg, Int.reduceLT, if_true, Prod.mk.injEq, Except.error.injEq, reduceCtorEq, false_and] at h)])
    | skip
  all_goals first
    | (rcases h_bindVar : w.fail Step.bindVar with _ | e <;>
        [simp only [h_bindVar, lt_self_iff_false, Bool.false_eq_true, lowestFree_not_neg, if_false] at h; (simp only [h_bindVar, Int.reduceNeg, Int.reduceLT, if_true, Prod.mk.injEq, Except.error.injEq, reduceCtorEq, false_and] at h)])
    | skip
  all_goals first
    | (rcases h_mountProc : w.fail Step.mountProc with _ | e <;>
        [simp only [h_mountProc, lt_self_iff_false, Bool.false_eq_true, lowestFree_not_neg, if_false] at h; (simp only [h_mountProc, Int.reduceNeg, Int.reduceLT, if_true, Prod.mk.injEq, Except.error.injEq, reduceCtorEq, false_and] at h)])
    | skip
  all_goals first
    | (rcases h_chdirRoot : w.fail Step.chdirRoot with _ | e <;>
        [simp only [h_chdirRoot, lt_self_iff_false, Bool.false_eq_true, lowestFree_not_neg, if_false] at h; (simp only [h_chdirRoot, Int.reduceNeg, Int.reduceLT, if_true, Prod.mk.injEq, Except.error.injEq, reduceCtorEq, false_and] at h)])
    | skip
  all_goals first
    | (rcases h_chroot : w.fail Step.chroot with _ | e <;>
        [simp only [h_chroot, lt_self_iff_false, Bool.false_eq_true, lowestFree_not_neg, if_false] at h; (simp only [h_chroot, Int.reduceNeg, Int.reduceLT, if_true, Prod.mk.injEq, Except.error.injEq, reduceCtorEq, false_and] at h)])
    | skip
  all_goals first
    | (rcases h_chdirSlash : w.fail Step.chdirSlash with _ | e <;>
        [simp only [h_chdirSlash, lt_self_iff_false, Bool.false_eq_true, lowestFree_not_neg, if_false] at h; (simp only [h_chdirSlash, Int.reduceNeg, Int.reduceLT, if_true, Prod.mk.injEq, Except.error.injEq, reduceCtorEq, false_and] at h)])
    | skip
  all_goals first
    | (rcases h_chdirCwd : w.fail Step.chdirCwd with _ | e <;>
        [simp only [h_chdirCwd, lt_self_iff_false, Bool.false_eq_true, lowestFree_not_neg, if_false] at h; (simp only [h_chdirCwd, Int.reduceNeg, Int.reduceLT, if_true, Prod.mk.injEq, Except.error.injEq, reduceCtorEq, false_and] at h)])
    | skip
  all_goals (rcases h_setgid : w.fail Step.setgid with _ | e <;>
    [simp only [h_setgid, lt_self_iff_false, Bool.false_eq_true, lowestFree_not_neg, if_false] at h; (simp only [h_setgid, Int.reduceNeg, Int.reduceLT, if_true, Prod.mk.injEq, Except.error.injEq, reduceCtorEq, false_and] at h)])
  all_goals (rcases h_initgroups : w.fail Step.initgroups with _ | e <;>
    [simp only [h_initgroups, lt_self_iff_false, Bool.false_eq_true, lowestFree_not_neg, if_false] at h; (simp only [h_initgroups, Int.reduceNeg, Int.reduceLT, if_true, Prod.mk.injEq, Except.error.injEq, reduceCtorEq, false_and] at h)])
  all_goals (rcases h_setuid : w.fail Step.setuid with _ | e <;>
    [simp only [h_setuid, lt_self_iff_false, Bool.false_eq_true, lowestFree_not_neg, if_false] at h; (simp only [h_setuid, Int.reduceNeg, Int.reduceLT, if_true, Prod.mk.injEq, Except.error.injEq, reduceCtorEq, false_and] at h)])
  all_goals by_cases hz : (w.wordexp [] t.Env.Command (WRDE_NOCMD ||| WRDE_UNDEF)).1 = 0
  all_goals first
    | (simp only [hz, WRDE_BADCHAR, WRDE_BADVAL, WRDE_CMDSUB, WRDE_SYNTAX] at h
       norm_num at h
       rcases h_execvpe : w.fail Step.execvpe with _ | e <;> simp [h_execvpe] at h
       obtain ⟨⟨rfl, rfl, rfl⟩, rfl⟩ := h
       simp [hz, TTaskEnv.GetEnvp, launchFds, launchEvents, closedFds, hR, hC])
    | (split_ifs at h <;> simp at h)

theorem runChild_of_childEnd (t : TTask) (w : ChildWorld) (e : ChildEnd)
    (h : t.childEnd w = some e) :
    t.ChildCallback w (ChildState.init t w) = (Except.error e, (t.runChild w).2) := by
  unfold TTask.childEnd at h
  unfold TTask.runChild at h ⊢
  rcases hr : t.ChildCallback w (ChildState.init t w) with ⟨r, s1⟩
  rw [hr] at h
  cases r with
  | ok a => simp at h
  | error e1 =>
    simp only [Option.some.injEq] at h
    rw [h]

/-- What `TTask::RotateFile` does relative to the macro
`CONTAINER_MAX_LOG_SIZE` (not negative): after a successful call on an
existing file, a file that was larger than the macro has size 0 and a file
within it is unchanged; no other file is touched. -/
theorem RotateFile_bounds_size (limit : Int) (w : FsWorld) (fs : Files) (path : String)
    (size : Int) (hlimit : 0 ≤ limit) (hfile : fs path = some size)
    (hok : (RotateFile limit w fs path).1 = TError.Success) :
    (RotateFile limit w fs path).2 path = some (if size > limit then 0 else size) ∧
    (∃ size1, (RotateFile limit w fs path).2 path = some size1 ∧ size1 ≤ limit) ∧
    (∀ p, p ≠ path → (RotateFile limit w fs path).2 p = fs p) := by
  unfold RotateFile at hok ⊢
  simp only [hfile] at hok ⊢
  cases hs : w.statErr path with
  | some e => simp [hs, TError.Success] at hok
  | none =>
    simp only [hs] at hok ⊢
    by_cases hbig : size > limit
    · simp only [hbig, if_true] at hok ⊢
      cases ht : w.truncateErr path with
      | some e => simp [ht, TError.Success] at hok
      | none =>
        simp only [ht]
        refine ⟨by simp, ⟨0, by simp, hlimit⟩, ?_⟩
        intro p hp
        simp [hp]
    · simp only [hbig, if_false]
      refine ⟨hfile, ⟨size, hfile, not_lt.mp hbig⟩, ?_⟩
      intro _ _
      trivial

/-- A log of 5000 bytes with the macro at 4096 bytes is truncated to
size 0. -/
theorem RotateFile_bounds_size_witness :
    (RotateFile 4096 quietFs logFiles "/tmp/stdout").2 "/tmp/stdout" = some 0 :=
  (RotateFile_bounds_size 4096 quietFs logFiles "/tmp/stdout" 5000 (by decide) (by decide)
    (by decide)).1

/-- C16 fails on the code: `TTask::RotateFile` compares the size of the file
with the macro `CONTAINER_MAX_LOG_SIZE` and with nothing that belongs to the
container.  For every stdout limit, every file larger than it and every value
of the macro that is at least the size of the file, a successful rotation
leaves the file as it is, larger than the limit; so does the file of 2 MiB
of the test, whose limit is 1 MiB, with the macro at 10 MiB. -/
theorem RotateFile_ignores_stdout_limit :
    (∀ (limit a b : Nat),
      (RotateFile ((limit : Int) + 1 + a + b) quietFs
          (oneFile "/tmp/stdout" ((limit : Int) + 1 + a)) "/tmp/stdout").1 = TError.Success ∧
      (RotateFile ((limit : Int) + 1 + a + b) quietFs
          (oneFile "/tmp/stdout" ((limit : Int) + 1 + a)) "/tmp/stdout").2 "/tmp/stdout" =
        some ((limit : Int) + 1 + a) ∧
      (limit : Int) < (limit : Int) + 1 + a) ∧
    (RotateFile 10485760 quietFs (oneFile "/tmp/stdout" 2097152) "/tmp/stdout").2 "/tmp/stdout" =
      some 2097152 := by
  refine ⟨?_, by decide⟩
  intro limit a b
  have h : ¬ ((limit : Int) + 1 + a > (limit : Int) + 1 + a + b) := by omega
  refine ⟨?_, ?_, by omega⟩
  · simp [RotateFile, oneFile, quietFs, h]
  · simp [RotateFile, oneFile, quietFs, h]

/-- C17: when the status pipe of the launch is on the descriptors 0 and 1
(the daemon runs without standard streams), the payload reaches `execvpe`
with descriptor 1 still the pipe's write end, `/dev/null` on 0, the stdout
file on 2 and the stderr file on 3.  With the pipe on 5 and 6 the three
files are on 0, 1 and 2. -/
theorem ChildCallback_stdio_descriptors :
    ((aliceTask "sleep 1000" "" "").forked lowFdWorld).childEnd lowFdChild =
      some (ChildEnd.execed (some "sleep") ["sleep", "1000"]
        (aliceTask "sleep 1000" "" "").Env.GetEnvp) ∧
    (((aliceTask "sleep 1000" "" "").forked lowFdWorld).runChild lowFdChild).2.fds =
      [(1, "pipe:w"), (0, "/dev/null"), (2, "/tmp/stdout"), (3, "/tmp/stderr")] ∧
    (((aliceTask "sleep 1000" "" "").forked (statusWorld 0 0)).runChild quietChild).2.fds =
      [(6, "pipe:w"), (0, "/dev/null"), (1, "/tmp/stdout"), (2, "/tmp/stderr")] := by
  refine ⟨by decide, by decide, by decide⟩

/-- C19: the PATH entry `TTaskEnv::Prepare` builds is the fixed list of
directories followed by a colon and the working directory (the configured
one, or `/home/<user>`), not the fixed list alone: for the working directory
`/place/porto/a` it ends in `:/bin:/place/porto/a`. -/
theorem Prepare_path_entry :
    ((aliceEnv "sleep 1000" "/place/porto/a" "").Prepare accounts).2.GetEnvp.head? =
      some "PATH=/usr/local/sbin:/usr/local/bin:/usr/sbin:/usr/bin:/sbin:/bin:/place/porto/a" ∧
    "PATH=/usr/local/sbin:/usr/local/bin:/usr/sbin:/usr/bin:/sbin:/bin" ∉
      ((aliceEnv "sleep 1000" "/place/porto/a" "").Prepare accounts).2.GetEnvp ∧
    ((aliceEnv "sleep 1000" "" "").Prepare accounts).2.GetEnvp.head? =
      some "PATH=/usr/local/sbin:/usr/local/bin:/usr/sbin:/usr/bin:/sbin:/bin:/home/porto-alice" ∧
    (∀ (cwd envir : String),
      ((aliceEnv "sleep 1000" cwd envir).Prepare accounts).2.GetEnvp.head? =
        some ("PATH=/usr/local/sbin:/usr/local/bin:/usr/sbin:/usr/bin:/sbin:/bin:" ++
          (if cwd.length ≠ 0 then cwd else "/home/porto-alice"))) := by
  refine ⟨by decide, by decide, by decide, ?_⟩
  intro cwd envir
  have hc : ("sleep 1000" : String).length ≠ 0 := by decide
  simp [TTaskEnv.Prepare, aliceEnv, accounts, TTaskEnv.GetEnvp, hc, SplitString, TError.Success,
    TError.isError]

/-- C20: for a non-empty command whose `env` property splits,
`TTaskEnv::Prepare` appends to the `Env` list the PATH entry, the user
entries, then `HOME=` followed by the working directory when `Cwd` is not
empty and by `/home/<User>` otherwise, then `USER=<User>`. -/
theorem Prepare_home_user_entries (e : TTaskEnv) (w : PrepareWorld)
    (hc : e.Command.length ≠ 0) (hs : (w.SplitString e.Envir ';').1.isError = false) :
    (e.Prepare w).2.Env =
      e.Env ++
      ["PATH=/usr/local/sbin:/usr/local/bin:/usr/sbin:/usr/bin:/sbin:/bin:" ++
        (if e.Cwd.length ≠ 0 then e.Cwd else "/home/" ++ e.User)] ++
      (w.SplitString e.Envir ';').2 ++
      ["HOME=" ++ (if e.Cwd.length ≠ 0 then e.Cwd else "/home/" ++ e.User),
       "USER=" ++ e.User] := by
  cases hu : w.getpwnam e.User with
  | none => simp [TTaskEnv.Prepare, hc, hs, hu]
  | some uid =>
    cases hg : w.getgrnam e.Group with
    | none => simp [TTaskEnv.Prepare, hc, hs, hu, hg]
    | some gid => simp [TTaskEnv.Prepare, hc, hs, hu, hg]

/-- Witness for C20: the entries for user `porto-alice` in `/place/porto/a`
and without a working directory. -/
theorem Prepare_home_user_entries_witness :
    ((aliceEnv "sleep 1000" "/place/porto/a" "a=b").Prepare accounts).2.Env =
      ["PATH=/usr/local/sbin:/usr/local/bin:/usr/sbin:/usr/bin:/sbin:/bin:/place/porto/a",
       "a=b", "HOME=/place/porto/a", "USER=porto-alice"] ∧
    ((aliceEnv "sleep 1000" "" "").Prepare accounts).2.Env =
      ["PATH=/usr/local/sbin:/usr/local/bin:/usr/sbin:/usr/bin:/sbin:/bin:/home/porto-alice",
       "HOME=/home/porto-alice", "USER=porto-alice"] :=
  ⟨(Prepare_home_user_entries (aliceEnv "sleep 1000" "/place/porto/a" "a=b") accounts
      (by decide) (by decide)).trans (by decide),
   (Prepare_home_user_entries (aliceEnv "sleep 1000" "" "") accounts
      (by decide) (by decide)).trans (by decide)⟩

/-! ## The claims on recovery, the pid of a launch and the RPC server -/

/-- C21 fails on the code: the container `a:b` of the recovery test has the
leaf cgroups `/porto/a:b` and `/porto%a:b`, and its cgroup file has the lines
`4:freezer:/porto/a:b` and `3:memory:/porto%a:b`.  `ValidateCgroups` splits
each line at every `:`, so the third token of the first line is `/porto/a`,
which is no leaf cgroup of the task, and an error of kind `Unknown` comes
back.  For the container `a` the same file passes. -/
theorem ValidateCgroups_rejects_colon_name :
    colonTask.ValidateCgroups (procWith ["4:freezer:/porto/a:b", "3:memory:/porto%a:b"]) =
      Run.done (TError.mk2 EError.Unknown "Task belongs to invalid subsystem freezer:/porto/a") ∧
    (SplitString "4:freezer:/porto/a:b" ':').2 = ["4", "freezer", "/porto/a", "b"] ∧
    startedTask.ValidateCgroups (procWith ["4:freezer:/porto/a", "3:memory:/porto%a"]) =
      Run.done TError.Success := by
  refine ⟨by decide, by decide, by decide⟩

/-- C24 fails on the code: when `clone` fails in the stub, the stub writes
-1 on the pipe and returns; the daemon reads -1 into `Pid`, finds the pipe
closed at the second read and returns `Success` with the task running and
`GetPid() = -1`, so that `Kill(15)` then calls `kill(-1, 15)`. -/
theorem Start_success_with_negative_pid :
    (aliceTask "sleep 1" "" "").Start { cloneFailWorld with fork := ⟨0, 0⟩ } =
      StartResult.stubReturn
        [⟨Call.setsid, Outcome.ok 0⟩, ⟨Call.clone stubCloneFlags, Outcome.fail EAGAIN⟩,
         ⟨Call.write 6 (-1), Outcome.ok 0⟩]
        ⟨EError.Unknown, EAGAIN, "clone()"⟩
        { aliceTask "sleep 1" "" "" with
          StdoutFile := "/tmp/stdout", StderrFile := "/tmp/stderr", Rfd := 5, Wfd := 6 } ∧
    ((aliceTask "sleep 1" "" "").Start cloneFailWorld).kind = some EError.Success ∧
    ((aliceTask "sleep 1" "" "").Start cloneFailWorld).task.map TTask.GetPid = some (-1) ∧
    ((aliceTask "sleep 1" "" "").Start cloneFailWorld).task.map TTask.IsRunning = some true ∧
    ((aliceTask "sleep 1" "" "").Start cloneFailWorld).task.map (fun t => t.Kill 15) =
      some (KillResult.signalled (-1) 15) := by
  refine ⟨by decide, by decide, by decide, by decide, by decide⟩

/-- C25 fails on the code: `ValidateCgroups` reads `tokens[1]` and
`tokens[2]` without looking at the size of the vector.  On an empty line the
vector is empty and on the line `garbage` it has one element, so the read at
index 1 is out of range; on the line `4:memory` it has two, so the read at
index 2 is. -/
theorem ValidateCgroups_reads_out_of_range :
    startedTask.ValidateCgroups (procWith [""]) = Run.outOfRange 1 0 ∧
    startedTask.ValidateCgroups (procWith ["garbage"]) = Run.outOfRange 1 1 ∧
    startedTask.ValidateCgroups (procWith ["3:freezer:/porto/a", "4:memory"]) =
      Run.outOfRange 2 2 := by
  refine ⟨by decide, by decide, by decide⟩

/-- C26 fails on the code: with `socket` returning descriptor 3 and `bind`
and `listen` succeeding, `CreateRpcServer` returns 0, not 3, and `main` calls
`accept` on descriptor 0.  The other half of the claim holds: the result is 0
or negative, and negative exactly when `socket`, `bind` or `listen`
failed. -/
theorem CreateRpcServer_returns_zero :
    CreateRpcServer ⟨3, 0, 0⟩ = 0 ∧
    portodMain ⟨3, 0, 0⟩ = MainStep.accepts 0 ∧
    (∀ w : RpcWorld, CreateRpcServer w = 0 ∨ CreateRpcServer w < 0) ∧
    (∀ w : RpcWorld, CreateRpcServer w < 0 ↔ (w.socket < 0 ∨ w.bind < 0 ∨ w.listen < 0)) := by
  refine ⟨by decide, by decide, ?_, ?_⟩
  · intro w
    unfold CreateRpcServer
    simp only
    split_ifs <;> simp
  · intro w
    unfold CreateRpcServer
    simp only
    split_ifs <;> simp <;> omega

theorem find?_map_assign (m : List (String × Option ICmd)) (k k1 : String) (v : Option ICmd) :
    (m.map (fun p => if p.1 == k then (k, v) else p)).find? (fun p => p.1 == k1) =
      (m.find? (fun p => p.1 == k1)).map (fun p => if p.1 == k then (k, v) else p) := by
  have hf : ((fun p : String × Option ICmd => p.1 == k1) ∘
      fun p : String × Option ICmd => if p.1 == k then (k, v) else p) =
      fun p : String × Option ICmd => p.1 == k1 := by
    funext p
    by_cases h : p.1 = k <;> simp [h]
  rw [List.find?_map, hf]

theorem mapGet_mapAssign_some (m : List (String × Option ICmd)) (k k1 : String) (c : ICmd)
    (h : ∃ c1, mapGet m k1 = some c1) : ∃ c1, mapGet (mapAssign m k (some c)) k1 = some c1 := by
  obtain ⟨c1, hc1⟩ := h
  unfold mapGet at hc1 ⊢
  unfold mapAssign
  rcases hf : m.find? (fun p => p.1 == k1) with _ | p
  · rw [hf] at hc1; cases hc1
  · rw [hf] at hc1
    simp only at hc1
    split_ifs with hany
    · rw [find?_map_assign, hf]
      simp only [Option.map_some']
      by_cases hk : p.1 = k
      · simp [hk]
      · simp [hk, hc1]
    · rw [List.find?_append, hf]
      simp [hc1]

theorem RegisterAll_keeps_help (cmds : List (Option ICmd)) :
    ∀ h : TCommandHandler, (∃ c, mapGet h.Commands "help" = some c) →
      match h.RegisterAll cmds with
      | none => none ∈ cmds
      | some h1 => ∃ c, mapGet h1.Commands "help" = some c := by
  induction cmds with
  | nil => intro h hh; exact hh
  | cons cmd rest ih =>
    intro h hh
    cases cmd with
    | none => simp [TCommandHandler.RegisterAll, TCommandHandler.RegisterCommand]
    | some c =>
      simp only [TCommandHandler.RegisterAll, TCommandHandler.RegisterCommand]
      have := ih { h with Commands := mapAssign h.Commands c.GetName (some c) }
        (mapGet_mapAssign_some _ _ _ _ hh)
      split at this
      · exact List.mem_cons_of_mem _ this
      · exact this

/-- C27: the constructor of `TCommandHandler` registers the command named
`help`; after any sequence of `RegisterCommand` calls, either an assertion
failed on a null command of the sequence, or the map holds a non-null entry
under the key `help` and `Usage` calls `Execute` of that command with the
given arguments. -/
theorem Usage_finds_help_command (cmds : List (Option ICmd)) :
    ∃ h0, TCommandHandler.new = some h0 ∧
      match h0.RegisterAll cmds with
      | none => none ∈ cmds
      | some h => ∃ cmd, mapGet h.Commands "help" = some cmd ∧
          ∀ command : Option String, h.Usage command = some (cmd, command.toList) := by
  refine ⟨_, rfl, ?_⟩
  have := RegisterAll_keeps_help cmds
    { Commands := mapAssign [] THelpCmd.GetName (some THelpCmd) } ⟨THelpCmd, by decide⟩
  split at this
  · rename_i heq
    rw [heq]
    exact this
  · rename_i h1 heq
    rw [heq]
    obtain ⟨c, hc⟩ := this
    refine ⟨c, hc, ?_⟩
    intro command
    unfold TCommandHandler.Usage
    rw [hc]
    cases command <;> rfl

/-- C28 fails on the code: for the empty description the loop pushes nothing
and the rest of the description is empty, so the vector stays empty and the
read of `v[0]` is out of range, in `src/src/cli.cpp` and in `src/cli.cpp`
alike, whatever the name and the widths. -/
theorem PrintAligned_reads_empty_vector (name : String) (nameWidth termWidth : Nat) :
    wrapChunks "" (sizeSub (sizeSub termWidth nameWidth) 4) = [] ∧
    PrintAligned name "" nameWidth termWidth = Run.outOfRange 0 0 ∧
    OldCli.PrintAligned name "" nameWidth termWidth = Run.outOfRange 0 0 := by
  refine ⟨rfl, rfl, rfl⟩

theorem MaxFieldLength_foldl_le {α : Type} (mapper : α → String) (coll : List α) :
    ∀ init : Nat, init ≤ coll.foldl
      (fun len i => if (mapper i).length > len then (mapper i).length else len) init ∧
    ∀ x ∈ coll, (mapper x).length ≤ coll.foldl
      (fun len i => if (mapper i).length > len then (mapper i).length else len) init := by
  induction coll with
  | nil => intro init; simp
  | cons a rest ih =>
    intro init
    simp only [List.foldl_cons, List.mem_cons, forall_eq_or_imp]
    refine ⟨?_, ?_, ?_⟩
    · refine le_trans ?_ (ih _).1
      split_ifs <;> omega
    · refine le_trans ?_ (ih _).1
      split_ifs <;> omega
    · exact (ih _).2

theorem MaxFieldLength_covers {α : Type} (mapper : α → String) (coll : List α) (min : Nat)
    (x : α) (hx : x ∈ coll) : (mapper x).length + 2 ≤ MaxFieldLength coll mapper min := by
  unfold MaxFieldLength
  have := (MaxFieldLength_foldl_le mapper coll 0).2 x hx
  simp only
  omega

/-- C29 fails on the code: the column width of the section `Property list`
is computed from the volume properties, not from the properties.  For every
value `min` of the macro `MIN_FIELD_LENGTH`, with no volume property and one
property whose name has `min + 1` characters, that name is printed with the
column width `min + 2`, one character more than the name.  The sections of
the volume properties and of the data are printed with a width at least two
characters greater than each of their names. -/
theorem Usage_property_width_of_volume_list (min : Nat) :
    (THelpCmd.Usage min true [] (oneProperty (min + 1))).properties =
      [⟨(wideProperty (min + 1)).Name, "a property", min + 2, 80⟩] ∧
    (wideProperty (min + 1)).Name.length = min + 1 ∧
    (∀ (b : Bool) (cmds : List (String × ICmd)) (w : HelpWorld),
      (THelpCmd.Usage min b cmds w).volumeProperties.all
        (fun c => decide (c.name.length + 2 ≤ c.nameWidth)) = true ∧
      (THelpCmd.Usage min b cmds w).data.all
        (fun c => decide (c.name.length + 2 ≤ c.nameWidth)) = true) := by
  refine ⟨?_, ?_, ?_⟩
  · simp [THelpCmd.Usage, oneProperty, MaxFieldLength, wideProperty]
  · simp [wideProperty, String.length]
  · intro b cmds w
    constructor <;>
    · simp only [THelpCmd.Usage]
      split_ifs
      all_goals first
        | rfl
        | (simp only [List.all_eq_true, List.mem_map, decide_eq_true_eq]
           rintro c ⟨p, hp, rfl⟩
           exact MaxFieldLength_covers (fun p : TPortoProperty => p.Name) _ _ p hp)

/-! ## Lemmas on `PrintAligned` -/

theorem sizeSub_of_le (a b : Nat) (h : b ≤ a) (ha : a < 2 ^ 64) : sizeSub a b = a - b := by
  unfold sizeSub
  omega

theorem wrap_range_succ (desc : String) (W k : Nat) :
    (List.range (k + 1)).foldl (wrapStep desc W) ([], 0) =
      wrapStep desc W ((List.range k).foldl (wrapStep desc W) ([], 0)) k := by
  rw [List.range_succ, List.foldl_append]
  rfl

theorem substr_length (s : String) (pos n : Nat) :
    (substr s pos n).length = min n (s.length - pos) := by
  show ((s.data.drop pos).take n).length = min n (s.data.length - pos)
  rw [List.length_take, List.length_drop]

theorem wrap_invariant (desc : String) (W : Nat) (hlen : desc.length < 2 ^ 64) :
    ∀ k, k ≤ desc.length →
      ((List.range k).foldl (wrapStep desc W) ([], 0)).2 ≤ k ∧
      (0 < k → ((List.range k).foldl (wrapStep desc W) ([], 0)).2 < k) ∧
      k ≤ ((List.range k).foldl (wrapStep desc W) ([], 0)).2 + W + 1 ∧
      (((List.range k).foldl (wrapStep desc W) ([], 0)).1.map String.data).flatten =
        desc.data.take ((List.range k).foldl (wrapStep desc W) ([], 0)).2 ∧
      ∀ c ∈ ((List.range k).foldl (wrapStep desc W) ([], 0)).1,
        c.length ≠ 0 ∧ c.length ≤ W + 1 := by
  intro k
  induction k with
  | zero =>
    intro _
    simp
  | succ k ih =>
    intro hk
    obtain ⟨h1, h2, h3, h4, h5⟩ := ih (by omega)
    rw [wrap_range_succ]
    generalize (List.range k).foldl (wrapStep desc W) ([], 0) = st at h1 h2 h3 h4 h5
    obtain ⟨v, start⟩ := st
    simp only at h1 h2 h3 h4 h5
    have hsub : sizeSub k start = k - start := sizeSub_of_le k start h1 (by omega)
    unfold wrapStep
    simp only [hsub]
    split_ifs with hgt
    · refine ⟨by omega, fun _ => by omega, by omega, ?_, ?_⟩
      · simp only [List.map_append, List.map_cons, List.map_nil, List.flatten_append,
          List.flatten_cons, List.flatten_nil, List.append_nil, h4, substr]
        have hk1 : k = start + (k - start) := by omega
        conv_rhs => rw [hk1, List.take_add]
      · intro c hc
        rw [List.mem_append] at hc
        rcases hc with hc | hc
        · exact h5 c hc
        · simp only [List.mem_singleton] at hc
          subst hc
          rw [substr_length]
          omega
    · refine ⟨by omega, fun _ => by omega, by omega, h4, h5⟩

theorem wrapChunks_spec (desc : String) (W : Nat) (hne : desc ≠ "")
    (hlen : desc.length < 2 ^ 64) :
    String.join (wrapChunks desc W) = desc ∧ wrapChunks desc W ≠ [] ∧
      ∀ c ∈ wrapChunks desc W, c.length ≠ 0 ∧ c.length ≤ W + 1 := by
  have hpos : 0 < desc.length := by
    rcases desc with ⟨l⟩
    cases l with
    | nil => exact absurd rfl hne
    | cons a l => simp [String.length]
  obtain ⟨h1, h2, h3, h4, h5⟩ := wrap_invariant desc W hlen desc.length le_rfl
  have h2 := h2 hpos
  unfold wrapChunks
  generalize (List.range desc.length).foldl (wrapStep desc W) ([], 0) = st at h1 h2 h3 h4 h5
  obtain ⟨v, start⟩ := st
  simp only at h1 h2 h3 h4 h5 ⊢
  have hl : (substr desc start desc.length).length = desc.length - start := by
    rw [substr_length]; omega
  have hl0 : (substr desc start desc.length).length ≠ 0 := by omega
  simp only [hl0, ne_eq, not_false_eq_true, if_true]
  refine ⟨?_, by simp, ?_⟩
  · apply String.ext
    rw [String.data_join]
    simp only [List.map_append, List.map_cons, List.map_nil, List.flatten_append,
      List.flatten_cons, List.flatten_nil, List.append_nil, h4, substr]
    have hd : (List.drop start desc.data).length ≤ desc.length := by
      show (List.drop start desc.data).length ≤ desc.data.length
      rw [List.length_drop]
      omega
    rw [List.take_of_length_le hd, List.take_append_drop]
  · intro c hc
    rw [List.mem_append] at hc
    rcases hc with hc | hc
    · exact h5 c hc
    · simp only [List.mem_singleton] at hc
      subst hc
      omega

/-- C30: for every non-empty description (of a length that fits `size_t`)
and all widths, with `descWidth = termWidth - nameWidth - 4` in `size_t`
arithmetic, the chunks `PrintAligned` collects, concatenated in order, give
the description back, no chunk is empty, every chunk has at most
`descWidth + 1` characters, and the lines written are the first chunk after
the padded name and each further chunk after a blank column. -/
theorem PrintAligned_wraps_losslessly (name desc : String) (nameWidth termWidth : Nat)
    (hne : desc ≠ "") (hlen : desc.length < 2 ^ 64) :
    String.join (wrapChunks desc (sizeSub (sizeSub termWidth nameWidth) 4)) = desc ∧
    (∀ c ∈ wrapChunks desc (sizeSub (sizeSub termWidth nameWidth) 4),
      c.length ≠ 0 ∧ c.length ≤ sizeSub (sizeSub termWidth nameWidth) 4 + 1) ∧
    ∃ first rest, wrapChunks desc (sizeSub (sizeSub termWidth nameWidth) 4) = first :: rest ∧
      PrintAligned name desc nameWidth termWidth =
        Run.done (("  " ++ setwLeft nameWidth name ++ first) ::
          rest.map (fun chunk => "  " ++ setwLeft nameWidth " " ++ chunk)) := by
  obtain ⟨h1, h2, h3⟩ := wrapChunks_spec desc (sizeSub (sizeSub termWidth nameWidth) 4) hne hlen
  refine ⟨h1, h3, ?_⟩
  rcases hv : wrapChunks desc (sizeSub (sizeSub termWidth nameWidth) 4) with _ | ⟨first, rest⟩
  · exact absurd hv h2
  · refine ⟨first, rest, rfl, ?_⟩
    unfold PrintAligned
    simp only [hv]

set_option maxRecDepth 100000 in
/-- Witness for C30: a description of 20 characters with the name width 4 on
a terminal of 16 columns, which is cut into chunks of at most 9
characters. -/
theorem PrintAligned_wraps_losslessly_witness :
    String.join (wrapChunks "0123456789abcdefghij" (sizeSub (sizeSub 16 4) 4)) =
      "0123456789abcdefghij" ∧
    (∀ c ∈ wrapChunks "0123456789abcdefghij" (sizeSub (sizeSub 16 4) 4),
      c.length ≠ 0 ∧ c.length ≤ sizeSub (sizeSub 16 4) 4 + 1) ∧
    ∃ first rest, wrapChunks "0123456789abcdefghij" (sizeSub (sizeSub 16 4) 4) = first :: rest ∧
      PrintAligned "run" "0123456789abcdefghij" 4 16 =
        Run.done (("  " ++ setwLeft 4 "run" ++ first) ::
          rest.map (fun chunk => "  " ++ setwLeft 4 " " ++ chunk)) :=
  PrintAligned_wraps_losslessly "run" "0123456789abcdefghij" 4 16 (by decide) (by decide)

/-! ## Lemmas on the calls before the word expansion -/

section
variable {α β : Type} {I : ChildState → Prop} {E : ChildEnd → ChildState → Prop}

theorem Keeps_pure (a : α) : (Pure.pure a : ChildM α).Keeps I E := by
  intro s hs
  refine ⟨fun a1 s1 h => ?_, fun e s1 h => ?_⟩
  · cases h; exact hs
  · cases h

theorem Keeps_bind {m : ChildM α} {f : α → ChildM β}
    (hm : m.Keeps I E) (hf : ∀ a, (f a).Keeps I E) : (m >>= f).Keeps I E := by
  intro s hs
  have hb : (m >>= f) s = (match m s with
    | (Except.ok a, s2) => f a s2
    | (Except.error e, s2) => (Except.error e, s2)) := rfl
  rw [hb]
  rcases hms : m s with ⟨r, s2⟩
  cases r with
  | ok a =>
    exact hf a s2 ((hm s hs).1 a s2 hms)
  | error e2 =>
    refine ⟨fun a1 s1 h => ?_, fun e s1 h => ?_⟩
    · cases h
    · simp only [Prod.mk.injEq, Except.error.injEq] at h
      obtain ⟨rfl, rfl⟩ := h
      exact (hm s hs).2 e2 s2 hms

theorem Keeps_ite {c : Prop} [Decidable c] {a b : ChildM α}
    (ha : a.Keeps I E) (hb : b.Keeps I E) : (if c then a else b).Keeps I E := by
  split
  · exact ha
  · exact hb

end

section
variable {fd : Int}

theorem Keeps_getErrno : ChildM.getErrno.Keeps (beforeExpansion fd) (expansionRefused fd) := by
  intro s hs
  refine ⟨fun a1 s1 h => ?_, fun e s1 h => ?_⟩
  · cases h; exact hs
  · cases h

theorem Keeps_getWfd : ChildM.getWfd.Keeps (beforeExpansion fd) (expansionRefused fd) := by
  intro s hs
  refine ⟨fun a1 s1 h => ?_, fun e s1 h => ?_⟩
  · cases h; exact hs
  · cases h

theorem Keeps_Syslog (msg : String) :
    (Syslog msg).Keeps (beforeExpansion fd) (expansionRefused fd) := by
  intro s hs
  refine ⟨fun a1 s1 h => ?_, fun e s1 h => ?_⟩
  · cases h; exact hs
  · cases h

theorem beforeExpansion_snoc {s : ChildState} (hs : beforeExpansion fd s) (ev : Event)
    (s1 : ChildState) (hw : s1.Wfd = s.Wfd) (ht : s1.trace = s.trace ++ [ev])
    (hev : ev.call.isLaunch = false) : beforeExpansion fd s1 := by
  refine ⟨hw.trans hs.1, ?_⟩
  intro ev1 h1
  rw [ht, List.mem_append, List.mem_singleton] at h1
  rcases h1 with h1 | h1
  · exact hs.2 ev1 h1
  · rw [h1]; exact hev

theorem Keeps_call (c : Call) (hc : c.isLaunch = false) :
    (ChildM.call c).Keeps (beforeExpansion fd) (expansionRefused fd) := by
  intro s hs
  refine ⟨fun a1 s1 h => ?_, fun e s1 h => ?_⟩
  · cases h
    exact beforeExpansion_snoc hs _ _ rfl rfl hc
  · cases h

theorem Keeps_sys (w : ChildWorld) (st : Step) (c : Call) (hc : c.isLaunch = false) :
    (ChildM.sys w st c).Keeps (beforeExpansion fd) (expansionRefused fd) := by
  intro s hs
  unfold ChildM.sys
  refine ⟨fun a1 s1 h => ?_, fun e s1 h => ?_⟩
  · split at h <;> cases h <;> exact beforeExpansion_snoc hs _ _ rfl rfl hc
  · split at h <;> cases h

theorem Keeps_mountOp (w : ChildWorld) (st : Step) (c : Call) (hc : c.isLaunch = false) :
    (mountOp w st c).Keeps (beforeExpansion fd) (expansionRefused fd) := by
  intro s hs
  unfold mountOp
  refine ⟨fun a1 s1 h => ?_, fun e s1 h => ?_⟩
  · split at h <;> cases h <;> exact beforeExpansion_snoc hs _ _ rfl rfl hc
  · split at h <;> cases h

theorem Keeps_sysClose (fd1 : Int) :
    (sysClose fd1).Keeps (beforeExpansion fd) (expansionRefused fd) := by
  intro s hs
  refine ⟨fun a1 s1 h => ?_, fun e s1 h => ?_⟩
  · cases h
    exact beforeExpansion_snoc hs _ _ rfl rfl rfl
  · cases h

theorem Keeps_sysOpen (w : ChildWorld) (st : Step) (p : String) (f m : Nat) :
    (sysOpen w st p f m).Keeps (beforeExpansion fd) (expansionRefused fd) := by
  intro s hs
  unfold sysOpen
  refine ⟨fun a1 s1 h => ?_, fun e s1 h => ?_⟩
  · split at h <;> cases h <;> exact beforeExpansion_snoc hs _ _ rfl rfl rfl
  · split at h <;> cases h

theorem Keeps_cgAttach (w : ChildWorld) (i : Nat) (cg : TCgroup) :
    (cgAttach w i cg).Keeps (beforeExpansion fd) (expansionRefused fd) := by
  intro s hs
  refine ⟨fun a1 s1 h => ?_, fun e s1 h => ?_⟩
  · cases h
    exact beforeExpansion_snoc hs _ _ rfl rfl rfl
  · cases h

theorem Keeps_sysClearenv :
    sysClearenv.Keeps (beforeExpansion fd) (expansionRefused fd) := by
  intro s hs
  refine ⟨fun a1 s1 h => ?_, fun e s1 h => ?_⟩
  · cases h
    exact beforeExpansion_snoc hs _ _ rfl rfl rfl
  · cases h

theorem expansionRefused_of_quiet (e : ChildEnd) (s : ChildState)
    (h : ∀ ev ∈ s.trace, ev.call.isLaunch = false) : expansionRefused fd e s := by
  intro c f r hmem _
  have := h _ hmem
  cases this

theorem Keeps_ReportResultAndExit (w : ChildWorld) (fd1 v : Int) :
    (ReportResultAndExit w fd1 v).Keeps (beforeExpansion fd) (expansionRefused fd) := by
  intro s hs
  refine ⟨fun a1 s1 h => ?_, fun e s1 h => ?_⟩
  · cases h
  · cases h
    have hq := beforeExpansion_snoc hs ⟨Call.write fd1 v, w.writeOutcome⟩
      { s with trace := s.trace ++ [⟨Call.write fd1 v, w.writeOutcome⟩] } rfl rfl rfl
    exact expansionRefused_of_quiet _ _ hq.2

theorem Keeps_leave (code : Int) :
    (ChildM.leave (ChildEnd.exited code) : ChildM Unit).Keeps (beforeExpansion fd)
      (expansionRefused fd) := by
  intro s hs
  refine ⟨fun a1 s1 h => ?_, fun e s1 h => ?_⟩
  · cases h
  · cases h
    exact expansionRefused_of_quiet _ _ hs.2

theorem Keeps_attachLeafCgroups (w : ChildWorld) (cgs : List TCgroup) :
    ∀ i, (attachLeafCgroups w i cgs).Keeps (beforeExpansion fd) (expansionRefused fd) := by
  induction cgs with
  | nil => intro i; exact Keeps_pure ()
  | cons cg rest ih =>
    intro i
    unfold attachLeafCgroups
    refine Keeps_bind (Keeps_cgAttach w i cg) (fun error => ?_)
    refine Keeps_bind ?_ (fun _ => ih (i + 1))
    refine Keeps_ite ?_ (Keeps_pure _)
    refine Keeps_bind (Keeps_Syslog _) (fun _ => ?_)
    refine Keeps_bind Keeps_getWfd (fun _ => ?_)
    exact Keeps_ReportResultAndExit w _ _

/-- The statement `Wfd = CloseAllFds(Wfd)` leaves `Wfd` as it is. -/
theorem Keeps_closeAll_bind {β : Type} (w : ChildWorld) (k : Unit → ChildM β)
    (hk : (k ()).Keeps (beforeExpansion fd) (expansionRefused fd)) :
    (ChildM.getWfd >>= fun a => CloseAllFds w a >>= fun b => ChildM.setWfd b >>= k).Keeps
      (beforeExpansion fd) (expansionRefused fd) := by
  intro s hs
  exact hk _ ⟨hs.1, hs.2⟩

end

theorem Keeps_sysWordexp_bind {β : Type} {fd : Int} (w : ChildWorld) (c : String) (f : Nat)
    (k : Int × List String → ChildM β)
    (hk : ∀ s, beforeExpansion fd s → ∀ r s1,
      k (w.wordexp s.environ c f)
        { s with trace := s.trace ++
          [⟨Call.wordexp c f, Outcome.ok (w.wordexp s.environ c f).1⟩] } = (r, s1) →
      ∃ e, r = Except.error e ∧ expansionRefused fd e s1) :
    (sysWordexp w c f >>= k).Keeps (beforeExpansion fd) (expansionRefused fd) := by
  intro s hs
  refine ⟨fun a1 s1 h => ?_, fun e s1 h => ?_⟩
  · obtain ⟨e, he, _⟩ := hk s hs _ _ h
    cases he
  · obtain ⟨e1, he, hE⟩ := hk s hs _ _ h
    cases he
    exact hE

set_option maxHeartbeats 1000000 in
theorem Keeps_ChildCallback (t : TTask) (w : ChildWorld) :
    (t.ChildCallback w).Keeps (beforeExpansion t.Wfd) (expansionRefused t.Wfd) := by
  unfold TTask.ChildCallback
  repeat' with_reducible first
    | exact Keeps_attachLeafCgroups w _ _
    | exact Keeps_ReportResultAndExit w _ _
    | exact Keeps_leave _
    | exact Keeps_pure _
    | exact Keeps_getErrno
    | exact Keeps_getWfd
    | exact Keeps_sysClose _
    | exact Keeps_sysOpen w _ _ _ _
    | exact Keeps_sysClearenv
    | exact Keeps_Syslog _
    | apply Keeps_call
    | apply Keeps_sys
    | apply Keeps_mountOp
    | apply Keeps_closeAll_bind
    | apply Keeps_sysWordexp_bind
    | apply Keeps_bind
    | apply Keeps_ite
    | intro _
  any_goals rfl
  rename_i s hs r s1 h
  generalize hres : w.wordexp s.environ t.Env.Command (WRDE_NOCMD ||| WRDE_UNDEF) = res at h
  obtain ⟨ret, words⟩ := res
  have hquiet : ∀ c f r1, (⟨Call.wordexp c f, Outcome.ok r1⟩ : Event) ∉ s.trace := by
    intro c f r1 hmem
    have := hs.2 _ hmem
    cases this
  have hquiet2 : ∀ ev ∈ s.trace, ∀ file argv envp, ev.call ≠ Call.execvpe file argv envp := by
    intro ev hmem file argv envp heq
    have := hs.2 _ hmem
    rw [heq] at this
    cases this
  simp only [bind_apply, pure_apply, ite_apply, Syslog, ReportResultAndExit, ChildM.getWfd,
    ChildM.getErrno, sysExecvpe] at h
  by_cases h0 : ret = 0
  · subst h0
    simp only [WRDE_BADCHAR, WRDE_BADVAL, WRDE_CMDSUB, WRDE_SYNTAX, OfNat.zero_ne_ofNat,
      ne_eq, not_true_eq_false, if_false] at h
    rcases hx : w.fail Step.execvpe with _ | e1
    all_goals
      simp only [hx, Prod.mk.injEq] at h
      obtain ⟨rfl, rfl⟩ := h
      refine ⟨_, rfl, ?_⟩
      intro c f r1 hmem hr
      simp only [List.mem_append, List.mem_singleton, Event.mk.injEq, Call.wordexp.injEq,
        Outcome.ok.injEq, reduceCtorEq, false_and, and_false, or_false] at hmem
      rcases hmem with hmem | hmem
      · exact absurd hmem (hquiet _ _ _)
      · exact absurd hmem.2 hr
  · have hE : ∀ lg : List String,
        expansionRefused t.Wfd (ChildEnd.reported s.Wfd (-EINVAL))
          { s with
            trace := s.trace ++ [⟨Call.wordexp t.Env.Command (WRDE_NOCMD ||| WRDE_UNDEF),
              Outcome.ok ret⟩] ++ [⟨Call.write s.Wfd (-EINVAL), w.writeOutcome⟩],
            syslog := lg } := by
      intro lg c f r1 _ _
      refine ⟨by rw [hs.1], ?_⟩
      intro ev hmem file argv envp
      simp only [List.mem_append, List.mem_singleton] at hmem
      rcases hmem with (hmem | hmem) | hmem
      · exact hquiet2 ev hmem file argv envp
      · rw [hmem]; simp
      · rw [hmem]; simp
    split_ifs at h
    all_goals
      simp only [Prod.mk.injEq] at h
      obtain ⟨rfl, rfl⟩ := h
      exact ⟨_, rfl, hE _⟩


/-- C22: on every run of `TTask::ChildCallback`, a successful `execvpe`
implies that the word expansion of the command, run against the emptied
environment, returned 0; and a run in which `wordexp` returned a non-zero
code ends by `ReportResultAndExit(Wfd, -EINVAL)`, the write of `-EINVAL` on
the status pipe being its last call, without any call of `execvpe`. -/
theorem ChildCallback_exec_needs_expansion (t : TTask) (w : ChildWorld) :
    (∀ file argv envp, t.childEnd w = some (ChildEnd.execed file argv envp) →
      (w.wordexp [] t.Env.Command (WRDE_NOCMD ||| WRDE_UNDEF)).1 = 0) ∧
    (∀ c f r, (⟨Call.wordexp c f, Outcome.ok r⟩ : Event) ∈ (t.runChild w).2.trace → r ≠ 0 →
      t.childEnd w = some (ChildEnd.reported t.Wfd (-EINVAL)) ∧
      (t.runChild w).2.trace.getLast? = some ⟨Call.write t.Wfd (-EINVAL), w.writeOutcome⟩ ∧
      ∀ ev ∈ (t.runChild w).2.trace, ∀ file argv envp,
        ev.call ≠ Call.execvpe file argv envp) := by
  constructor
  · intro file argv envp h
    exact (exec_run t w _ _ file argv envp (runChild_of_childEnd t w _ h)).1
  · intro c f r hmem hr
    have hK := Keeps_ChildCallback t w (ChildState.init t w)
      ⟨rfl, fun ev hev => by simp [ChildState.init] at hev⟩
    have hL := Ends_ChildCallback t w (ChildState.init t w)
    unfold TTask.childEnd
    unfold TTask.runChild at hmem ⊢
    rcases hrun : t.ChildCallback w (ChildState.init t w) with ⟨res, s1⟩
    rw [hrun] at hmem
    cases res with
    | ok a =>
      have := (hK.1 a s1 hrun).2 _ hmem
      cases this
    | error e =>
      obtain ⟨he, hno⟩ := hK.2 e s1 hrun c f r hmem hr
      subst he
      exact ⟨rfl, hL _ s1 hrun _ _ rfl, hno⟩

/-- Witness for C22: the launch of `sleep 1`, once with every call
succeeding, where `execvpe` is reached and the expansion gave 0, and once with
a word expansion that returns `WRDE_SYNTAX`. -/
theorem ChildCallback_exec_needs_expansion_witness :
    (wordexpPlain [] "sleep 1" (WRDE_NOCMD ||| WRDE_UNDEF)).1 = 0 ∧
    (((aliceTask "sleep 1" "" "").forked (statusWorld 0 0)).childEnd (refusingChild WRDE_SYNTAX) =
        some (ChildEnd.reported 6 (-EINVAL)) ∧
      (((aliceTask "sleep 1" "" "").forked (statusWorld 0 0)).runChild
          (refusingChild WRDE_SYNTAX)).2.trace.getLast? =
        some ⟨Call.write 6 (-EINVAL), Outcome.ok 4⟩ ∧
      ∀ ev ∈ (((aliceTask "sleep 1" "" "").forked (statusWorld 0 0)).runChild
          (refusingChild WRDE_SYNTAX)).2.trace, ∀ file argv envp,
        ev.call ≠ Call.execvpe file argv envp) :=
  ⟨(ChildCallback_exec_needs_expansion ((aliceTask "sleep 1" "" "").forked (statusWorld 0 0))
      quietChild).1 (some "sleep") ["sleep", "1"]
      ((aliceTask "sleep 1" "" "").forked (statusWorld 0 0)).Env.GetEnvp (by decide),
   (ChildCallback_exec_needs_expansion ((aliceTask "sleep 1" "" "").forked (statusWorld 0 0))
      (refusingChild WRDE_SYNTAX)).2 "sleep 1" (WRDE_NOCMD ||| WRDE_UNDEF) WRDE_SYNTAX
      (by decide) (by decide)⟩

end Porto
